import Mathlib

/-!
# Verification of the Blink compiler front end (parser → analyzer → IR generator)

Shallow embedding of the Rust sources under `src/compiler/src/` of
`ercasta/blink-idle-rpg`:

* `lexer/mod.rs`  — only the token data types (`TokenKind`, `Token`, `Span`);
  the tokenizer itself is outside the specified core, which consumes a
  `Vec<Token>`.
* `parser/mod.rs` — the full recursive-descent parser, embedded with a fuel
  parameter in place of Rust's unbounded recursion.
* `analyzer/mod.rs` — the two-pass semantic analyzer, embedded in explicit
  state-passing style (the `Analyzer` struct is threaded through).
* `ir/mod.rs` — the IR generator, likewise state-passing for its id counters.
* `lib.rs` — the compilation pipeline, starting from the token stream.

Numeric conventions: Rust `f64` values are carried as exact rationals (`Rat`).
Every number the compiler handles originates from a decimal literal in the
source text and is only stored and copied, never computed with, so exactness
of representation is irrelevant to every statement proved below.  `usize`,
`u32`, `i32` and `i64` are carried as `Nat`/`Int`; the id counters and span
offsets never approach wrap-around in any statement below, and the `i32`/`i64`
range checks performed by `str::parse` are modelled explicitly where the
source performs them.
-/

namespace Blink

/-- `Span` from `lexer/mod.rs`: byte offsets into the source. -/
structure Span where
  start : Nat
  stop : Nat
deriving DecidableEq

/-- `Span::new` from `lexer/mod.rs`. -/
def Span.new (start stop : Nat) : Span := ⟨start, stop⟩

/-- `TokenKind` from `lexer/mod.rs` (the full enum, in source order). -/
inductive TokenKind where
  | Component | Rule | On | Trigger | Event | Entity | If | Else | For | While
  | Fn | Return | True | False | Null | Schedule | Cancel | Recurring
  | Module | Import | When | Create | Delete | Has | Let | In | Choice | New
  | Clone | Having | Entities
  | TypeString | TypeBoolean | TypeInteger | TypeFloat | TypeDecimal | TypeId
  | TypeList
  | Identifier | EntityRef
  | StringLiteral | StringLiteralSingle | DecimalLiteral | FloatLiteral
  | IntegerLiteral
  | LBrace | RBrace | LParen | RParen | LBracket | RBracket
  | Comma | Colon | Semicolon | Dot | Question
  | Plus | Minus | Star | Slash | Percent | Eq | EqEq | NotEq
  | Lt | LtEq | Gt | GtEq | AndAnd | OrOr | Not | And
  | PlusEq | MinusEq | StarEq | SlashEq | Arrow
deriving DecidableEq

/-- `Token` from `lexer/mod.rs`. -/
structure Token where
  kind : TokenKind
  text : String
  span : Span
deriving DecidableEq

/-! ## Numeric text parsing

Models of `str::parse::<iN>` and `str::parse::<f64>` as used by the parser on
token texts.  The integer models accept an optional sign followed by at least
one ASCII digit, with the exact two's-complement range check (`+` sign included,
as Rust's `from_str_radix` accepts it).  The float model accepts the decimal
shapes `[sign]digits[.digits]`, which covers every text the lexer can attach to
an `IntegerLiteral`/`FloatLiteral`/`DecimalLiteral` token; exotic `f64` syntax
(exponents, `inf`, `nan`) is outside the modelled domain and unreachable from
lexer output. -/

/-- Accumulate the value of a pure digit string; `none` on a non-digit. -/
def digitsVal : List Char → Nat → Option Nat
  | [], acc => some acc
  | c :: cs, acc =>
      if c.isDigit then digitsVal cs (acc * 10 + (c.toNat - 48)) else none

/-- Parse a non-empty all-digit string. -/
def parseDigits (cs : List Char) : Option Nat :=
  match cs with
  | [] => none
  | _ => digitsVal cs 0

/-- Model of `str::parse::<iN>` with inclusive range `[lo, hi]`. -/
def parseIntIn (s : String) (lo hi : Int) : Option Int :=
  let core : List Char → Bool → Option Int := fun cs neg =>
    match parseDigits cs with
    | none => none
    | some n =>
        let v : Int := if neg then -(n : Int) else (n : Int)
        if lo ≤ v ∧ v ≤ hi then some v else none
  match s.toList with
  | '-' :: rest => core rest true
  | '+' :: rest => core rest false
  | cs => core cs false

/-- `str::parse::<i32>`. -/
def parseI32 (s : String) : Option Int := parseIntIn s (-(2 ^ 31)) (2 ^ 31 - 1)

/-- `str::parse::<i64>`. -/
def parseI64 (s : String) : Option Int := parseIntIn s (-(2 ^ 63)) (2 ^ 63 - 1)

/-- Model of `str::parse::<f64>` on decimal texts, exact (see header note). -/
def parseF64 (s : String) : Option Rat :=
  let core : List Char → Option Rat := fun cs =>
    match cs.splitOn '.' with
    | [intPart] => (parseDigits intPart).map (fun n => (n : Rat))
    | [intPart, fracPart] =>
        match parseDigits intPart, parseDigits fracPart with
        | some i, some f => some ((i : Rat) + (f : Rat) / ((10 : Rat) ^ fracPart.length))
        | _, _ => none
    | _ => none
  match s.toList with
  | '-' :: rest => (core rest).map Neg.neg
  | cs => core cs

/-- `str::trim_end_matches('d')`: drop every trailing `d`. -/
def trimTrailingD (s : String) : String :=
  String.mk ((s.toList.reverse.dropWhile (· = 'd')).reverse)

/-- The `&token.text[1..token.text.len()-1]` slice (strip surrounding quotes). -/
def innerText (s : String) : String := (s.drop 1).dropRight 1

/-! ## Untyped AST (`parser/mod.rs`) -/

/-- `TypeExpr` from `parser/mod.rs`. -/
inductive TypeExpr where
  | string
  | boolean
  | integer
  | float
  | decimal
  | id
  | component (name : String)
  | list (inner : TypeExpr)
  | optional (inner : TypeExpr)
  | composite (types : List TypeExpr)

/-- `Literal` from `parser/mod.rs`; `Float` carries an exact rational. -/
inductive Literal where
  | string (s : String)
  | integer (n : Int)
  | float (x : Rat)
  | decimal (s : String)
  | boolean (b : Bool)
  | null
deriving DecidableEq

/-- `BinaryOp` from `parser/mod.rs`. -/
inductive BinaryOp where
  | Add | Sub | Mul | Div | Mod
  | Eq | NotEq | Lt | LtEq | Gt | GtEq
  | And | Or
deriving DecidableEq

/-- `UnaryOp` from `parser/mod.rs`. -/
inductive UnaryOp where
  | Neg | Not
deriving DecidableEq

/-- `AssignOp` from `parser/mod.rs`. -/
inductive AssignOp where
  | Assign | AddAssign | SubAssign | MulAssign | DivAssign
deriving DecidableEq

mutual
/-- `Expr` from `parser/mod.rs`. -/
inductive Expr where
  | literal (lit : Literal)
  | identifier (name : String) (span : Span)
  | entityRef (name : String) (span : Span)
  | fieldAccess (base : Expr) (field : String) (span : Span)
  | indexAccess (base : Expr) (index : Expr) (span : Span)
  | binary (left : Expr) (op : BinaryOp) (right : Expr) (span : Span)
  | unary (op : UnaryOp) (e : Expr) (span : Span)
  | call (name : String) (args : List Expr) (span : Span)
  | methodCall (base : Expr) (method : String) (args : List Expr) (span : Span)
  | hasComponent (base : Expr) (comp : String) (span : Span)
  | cast (e : Expr) (ty : TypeExpr) (span : Span)
  | listLit (elements : List Expr) (span : Span)
  | paren (e : Expr) (span : Span)
  | entitiesHaving (comp : String) (span : Span)
  | cloneEntity (source : Expr) (overrides : List ComponentInit) (span : Span)

/-- `ComponentInit` from `parser/mod.rs`. -/
inductive ComponentInit where
  | mk (name : String) (fields : List (String × Expr)) (span : Span)
end

def ComponentInit.name : ComponentInit → String
  | .mk n _ _ => n

def ComponentInit.fields : ComponentInit → List (String × Expr)
  | .mk _ f _ => f

/-- `Expr::span` from `parser/mod.rs` (literals report span `(0,0)`). -/
def Expr.span : Expr → Span
  | .literal _ => Span.new 0 0
  | .identifier _ s => s
  | .entityRef _ s => s
  | .fieldAccess _ _ s => s
  | .indexAccess _ _ s => s
  | .binary _ _ _ s => s
  | .unary _ _ s => s
  | .call _ _ s => s
  | .methodCall _ _ _ s => s
  | .hasComponent _ _ s => s
  | .cast _ _ s => s
  | .listLit _ s => s
  | .paren _ s => s
  | .entitiesHaving _ s => s
  | .cloneEntity _ _ s => s

mutual
/-- `Statement` from `parser/mod.rs` (Lean keywords suffixed with `S`). -/
inductive Statement where
  | letS (s : LetStatement)
  | assignment (s : AssignmentStatement)
  | ifS (s : IfStatement)
  | forS (s : ForStatement)
  | whileS (s : WhileStatement)
  | returnS (s : ReturnStatement)
  | schedule (s : ScheduleStatement)
  | cancel (s : CancelStatement)
  | create (s : CreateStatement)
  | delete (s : DeleteStatement)
  | expr (e : Expr)

/-- `LetStatement` from `parser/mod.rs`. -/
inductive LetStatement where
  | mk (name : String) (typeAnnot : Option TypeExpr) (value : Expr) (span : Span)

/-- `AssignmentStatement` from `parser/mod.rs`. -/
inductive AssignmentStatement where
  | mk (target : Expr) (op : AssignOp) (value : Expr) (span : Span)

/-- `IfStatement` from `parser/mod.rs`. -/
inductive IfStatement where
  | mk (condition : Expr) (thenBlock : Block) (elseBlock : Option ElseClause) (span : Span)

/-- `ElseClause` from `parser/mod.rs` (`Box` erased). -/
inductive ElseClause where
  | elseIf (s : IfStatement)
  | elseBlock (b : Block)

/-- `ForStatement` from `parser/mod.rs`; `varName` models the source field
`variable` (a Lean keyword). -/
inductive ForStatement where
  | mk (varName : String) (iterable : Expr) (body : Block) (span : Span)

/-- `WhileStatement` from `parser/mod.rs`. -/
inductive WhileStatement where
  | mk (condition : Expr) (body : Block) (span : Span)

/-- `ReturnStatement` from `parser/mod.rs`. -/
inductive ReturnStatement where
  | mk (value : Option Expr) (span : Span)

/-- `ScheduleStatement` from `parser/mod.rs`. -/
inductive ScheduleStatement where
  | mk (recurring : Bool) (delay : Option Expr) (interval : Option Expr)
       (eventName : String) (fields : List (String × Expr)) (span : Span)

/-- `CancelStatement` from `parser/mod.rs`. -/
inductive CancelStatement where
  | mk (target : Expr) (span : Span)

/-- `CreateStatement` from `parser/mod.rs`. -/
inductive CreateStatement where
  | mk (components : List ComponentInit) (span : Span)

/-- `DeleteStatement` from `parser/mod.rs`. -/
inductive DeleteStatement where
  | mk (entity : Expr) (span : Span)

/-- `Block` from `parser/mod.rs`. -/
inductive Block where
  | mk (statements : List Statement) (span : Span)
end

def Block.statements : Block → List Statement
  | .mk s _ => s

/-- `FieldDef` from `parser/mod.rs`. -/
structure FieldDef where
  name : String
  fieldType : TypeExpr
  optional : Bool
  span : Span

/-- `ComponentDef` from `parser/mod.rs`. -/
structure ComponentDef where
  name : String
  fields : List FieldDef
  span : Span

/-- `RuleDef` from `parser/mod.rs`. -/
structure RuleDef where
  name : Option String
  triggerEvent : String
  condition : Option Expr
  priority : Option Int
  body : Block
  span : Span

/-- `ParamDef` from `parser/mod.rs`. -/
structure ParamDef where
  name : String
  paramType : TypeExpr
  span : Span

/-- `FunctionDef` from `parser/mod.rs`. -/
structure FunctionDef where
  name : String
  params : List ParamDef
  returnType : Option TypeExpr
  body : Block
  span : Span

/-- `ImportDef` from `parser/mod.rs`. -/
structure ImportDef where
  path : List String
  items : Option (List String)
  span : Span

/-- `BoundFunctionDef` from `parser/mod.rs`. -/
structure BoundFunctionDef where
  name : String
  params : List ParamDef
  returnType : Option TypeExpr
  body : Block
  span : Span

/-- `EntityDef` from `parser/mod.rs`.  `varName` models the source field
`variable` (a Lean keyword): the optional variable binding; the struct has no
name field. -/
structure EntityDef where
  varName : Option String
  components : List ComponentInit
  boundFunctions : List BoundFunctionDef
  span : Span

/-- `Item` from `parser/mod.rs`.  `ModuleItemDef` is inlined into the
`moduleDef` constructor (its three fields in source order) because it nests
`Item` recursively.  Note the enum has no tracker variant: trackers were
removed from the parser. -/
inductive Item where
  | component (c : ComponentDef)
  | rule (r : RuleDef)
  | function (f : FunctionDef)
  | importItem (i : ImportDef)
  | moduleDef (name : String) (items : List Item) (span : Span)
  | entity (e : EntityDef)

/-- `Module` from `parser/mod.rs`. -/
structure Module where
  items : List Item

/-! ## Parser (`parser/mod.rs`) -/

/-- `ParseError` from `parser/mod.rs`.  The `InvalidSyntax` variant is named
`invalidSyn` here. -/
inductive ParseError where
  | unexpectedToken (found : String) (expected : String) (position : Nat)
  | unexpectedEof (expected : String)
  | invalidSyn (message : String)
deriving DecidableEq

/-- The `#[error(...)]` display string of a `ParseError`. -/
def ParseError.render : ParseError → String
  | .unexpectedToken found expected position =>
      "Unexpected token '" ++ found ++ "' at position " ++ toString position ++
        ", expected " ++ expected
  | .unexpectedEof expected =>
      "Unexpected end of input, expected " ++ expected
  | .invalidSyn message =>
      "Invalid syntax: " ++ message

/-- `Parser::peek`. -/
def peekT (toks : List Token) (pos : Nat) : Option Token := toks.get? pos

/-- `Parser::is_at_end`. -/
def isAtEnd (toks : List Token) (pos : Nat) : Bool := toks.length ≤ pos

/-- `Parser::check`. -/
def checkT (toks : List Token) (pos : Nat) (kind : TokenKind) : Bool :=
  match peekT toks pos with
  | some t => t.kind = kind
  | none => false

/-- `Parser::advance` (returns the consumed token and the new position). -/
def advanceT (toks : List Token) (pos : Nat) : Option (Token × Nat) :=
  match peekT toks pos with
  | some t => some (t, pos + 1)
  | none => none

/-- `Parser::consume`. -/
def consume (toks : List Token) (pos : Nat) (kind : TokenKind) (expected : String) :
    Except ParseError (Token × Nat) :=
  match peekT toks pos with
  | some t =>
      if t.kind = kind then .ok (t, pos + 1)
      else .error (.unexpectedToken t.text expected t.span.start)
  | none => .error (.unexpectedEof expected)

/-- The recurring `self.tokens.get(self.pos.saturating_sub(1))` span-end idiom
(`Nat` subtraction is saturating). -/
def prevEnd (toks : List Token) (pos : Nat) (dflt : Nat) : Nat :=
  match toks.get? (pos - 1) with
  | some t => t.span.stop
  | none => dflt

/-- Error used when the fuel of the embedded parser runs out.  The Rust
parser has no such case; for every run examined below fuel is ample, and no
theorem depends on this value beyond it being a `ParseError`. -/
def fuelError : ParseError := .invalidSyn "recursion limit exceeded"

set_option maxHeartbeats 4000000
set_option maxRecDepth 100000

mutual

/-- `Parser::parse_module` (the top-level item loop). -/
def parseModule (toks : List Token) : Nat → Nat → Except ParseError (Module × Nat)
  | 0, _ => .error fuelError
  | fuel + 1, pos => do
      let (items, pos) ← parseModuleItemsLoop toks fuel pos []
      .ok (⟨items⟩, pos)

/-- The `while !self.is_at_end()` loop inside `parse_module`. -/
def parseModuleItemsLoop (toks : List Token) : Nat → Nat → List Item → Except ParseError ((List Item) × Nat)
  | 0, _, _ => .error fuelError
  | fuel + 1, pos, acc => do
      if !(isAtEnd toks pos) then
        let (item, pos) ← parseItem toks fuel pos
        parseModuleItemsLoop toks fuel pos (item :: acc)
      else
        .ok (acc.reverse, pos)
termination_by structural fuel => fuel

/-- `Parser::parse_item`. -/
def parseItem (toks : List Token) : Nat → Nat → Except ParseError (Item × Nat)
  | 0, _ => .error fuelError
  | fuel + 1, pos =>
      match peekT toks pos with
      | none => .error (.unexpectedEof "item")
      | some token =>
        match token.kind with
        | .Component => do
            let (c, pos) ← parseComponent toks fuel pos
            .ok (.component c, pos)
        | .Rule => do
            let (r, pos) ← parseRule toks fuel pos
            .ok (.rule r, pos)
        | .Fn => do
            let (f, pos) ← parseFunction toks fuel pos
            .ok (.function f, pos)
        | .Import => do
            let (i, pos) ← parseImport toks fuel pos
            .ok (.importItem i, pos)
        | .Module => do
            let (m, pos) ← parseModuleDef toks fuel pos
            .ok (m, pos)
        | .Entity => do
            let (e, pos) ← parseEntity toks fuel pos
            .ok (.entity e, pos)
        | .New => do
            let (e, pos) ← parseEntity toks fuel pos
            .ok (.entity e, pos)
        | .EntityRef => do
            let (e, pos) ← parseEntity toks fuel pos
            .ok (.entity e, pos)
        | .Identifier =>
            if ((toks.get? (pos + 1)).map (fun t => decide (t.kind = TokenKind.Eq))).getD false then
              if ((toks.get? (pos + 2)).map (fun t => decide (t.kind = TokenKind.New))).getD false then do
                let (e, pos) ← parseEntityAssignment toks fuel pos
                .ok (.entity e, pos)
              else
                .error (.unexpectedToken token.text
                  "component, rule, fn, import, module, entity, or entity assignment"
                  token.span.start)
            else
              .error (.unexpectedToken token.text
                "component, rule, fn, import, module, entity, or entity assignment"
                token.span.start)
        | _ =>
            .error (.unexpectedToken token.text
              "component, rule, fn, import, module, or entity" token.span.start)
termination_by structural fuel => fuel

/-- `Parser::parse_entity_assignment`. -/
def parseEntityAssignment (toks : List Token) : Nat → Nat → Except ParseError (EntityDef × Nat)
  | 0, _ => .error fuelError
  | fuel + 1, pos => do
      let (varToken, pos) ← consume toks pos .Identifier "variable name"
      let (_, pos) ← consume toks pos .Eq "="
      let (_, pos) ← consume toks pos .New "new"
      let (_, pos) ← consume toks pos .Entity "entity"
      let (_, pos) ← consume toks pos .LBrace "\x7b"
      let (components, boundFunctions, pos) ← parseEntityBodyLoop toks fuel pos [] []
      let (endToken, pos) ← consume toks pos .RBrace "\x7d"
      .ok ({ varName := some varToken.text, components, boundFunctions,
             span := Span.new varToken.span.start endToken.span.stop }, pos)

/-- The shared entity-body loop of `parse_entity_assignment` / `parse_entity`
(the two functions contain the identical `while` loop). -/
def parseEntityBodyLoop (toks : List Token) :
    Nat → Nat → List ComponentInit → List BoundFunctionDef →
    Except ParseError (List ComponentInit × List BoundFunctionDef × Nat)
  | 0, _, _, _ => .error fuelError
  | fuel + 1, pos, comps, funcs => do
      if !(checkT toks pos .RBrace) && !(isAtEnd toks pos) then
        if checkT toks pos .Dot then
          let (f, pos) ← parseBoundFunction toks fuel pos
          parseEntityBodyLoop toks fuel pos comps (f :: funcs)
        else
          let (c, pos) ← parseComponentInit toks fuel pos
          parseEntityBodyLoop toks fuel pos (c :: comps) funcs
      else
        .ok (comps.reverse, funcs.reverse, pos)
termination_by structural fuel => fuel

/-- `Parser::parse_component`. -/
def parseComponent (toks : List Token) : Nat → Nat → Except ParseError (ComponentDef × Nat)
  | 0, _ => .error fuelError
  | fuel + 1, pos => do
      let (startToken, pos) ← consume toks pos .Component "component"
      let (nameToken, pos) ← consume toks pos .Identifier "component name"
      let (_, pos) ← consume toks pos .LBrace "\x7b"
      let (fields, pos) ← parseComponentFieldsLoop toks fuel pos []
      let (endToken, pos) ← consume toks pos .RBrace "\x7d"
      .ok ({ name := nameToken.text, fields,
             span := Span.new startToken.span.start endToken.span.stop }, pos)

/-- The field loop inside `parse_component`. -/
def parseComponentFieldsLoop (toks : List Token) :
    Nat → Nat → List FieldDef → Except ParseError ((List FieldDef) × Nat)
  | 0, _, _ => .error fuelError
  | fuel + 1, pos, acc => do
      if !(checkT toks pos .RBrace) && !(isAtEnd toks pos) then
        let (f, pos) ← parseField toks fuel pos
        parseComponentFieldsLoop toks fuel pos (f :: acc)
      else
        .ok (acc.reverse, pos)
termination_by structural fuel => fuel

/-- `Parser::parse_field` (keywords `entity`, `event`, `id` allowed as field
names). -/
def parseField (toks : List Token) : Nat → Nat → Except ParseError (FieldDef × Nat)
  | 0, _ => .error fuelError
  | fuel + 1, pos => do
      let (nameToken, pos) ←
        match peekT toks pos with
        | some token =>
            match token.kind with
            | .Identifier | .Entity | .Event | .TypeId =>
                match advanceT toks pos with
                | some (t, pos) => Except.ok (t, pos)
                | none => Except.error (ParseError.unexpectedEof "field name")
            | _ => consume toks pos .Identifier "field name"
        | none => Except.error (ParseError.unexpectedEof "field name")
      let (_, pos) ← consume toks pos .Colon ":"
      let (fieldType, pos) ← parseType toks fuel pos
      let (optional, pos) :=
        if checkT toks pos .Question then (true, pos + 1) else (false, pos)
      let stop := prevEnd toks pos nameToken.span.start
      .ok ({ name := nameToken.text,
             fieldType := if optional then TypeExpr.optional fieldType else fieldType,
             optional,
             span := Span.new nameToken.span.start stop }, pos)

/-- `Parser::parse_type`. -/
def parseType (toks : List Token) : Nat → Nat → Except ParseError (TypeExpr × Nat)
  | 0, _ => .error fuelError
  | fuel + 1, pos =>
      match advanceT toks pos with
      | none => .error (.unexpectedEof "type")
      | some (token, pos) =>
        match token.kind with
        | .TypeString => .ok (.string, pos)
        | .TypeBoolean => .ok (.boolean, pos)
        | .TypeInteger => .ok (.integer, pos)
        | .TypeFloat => .ok (.float, pos)
        | .TypeDecimal => .ok (.decimal, pos)
        | .TypeId => .ok (.id, pos)
        | .TypeList =>
            if checkT toks pos .Lt then do
              let pos := pos + 1
              let (inner, pos) ← parseType toks fuel pos
              let (_, pos) ← consume toks pos .Gt ">"
              .ok (.list inner, pos)
            else
              .ok (.list .id, pos)
        | .Identifier => .ok (.component token.text, pos)
        | _ => .error (.unexpectedToken token.text "type" token.span.start)
termination_by structural fuel => fuel

/-- `Parser::parse_rule`.  Note the source builds the rule span as
`Span::new(start, self.pos)` — the end is the token *index* after the body. -/
def parseRule (toks : List Token) : Nat → Nat → Except ParseError (RuleDef × Nat)
  | 0, _ => .error fuelError
  | fuel + 1, pos => do
      let (ruleToken, pos) ← consume toks pos .Rule "rule"
      let (name, pos) :=
        if checkT toks pos .Identifier then
          match peekT toks pos with
          | some t => (some t.text, pos + 1)
          | none => (none, pos)
        else (none, pos)
      let (_, pos) ← consume toks pos .On "on"
      let (triggerToken, pos) ← consume toks pos .Identifier "event name"
      let (condition, pos) ←
        if checkT toks pos .When then do
          let pos := pos + 1
          let (c, pos) ← parseExpression toks fuel pos
          Except.ok (some c, pos)
        else Except.ok (none, pos)
      let (priority, pos) ←
        if checkT toks pos .LBracket then do
          let pos := pos + 1
          let (_, pos) ← consume toks pos .Identifier "priority"
          let (_, pos) ← consume toks pos .Colon ":"
          let (valueToken, pos) ← consume toks pos .IntegerLiteral "priority value"
          match parseI32 valueToken.text with
          | none =>
              Except.error (ParseError.invalidSyn
                ("Invalid priority value: '" ++ valueToken.text ++
                  "' is not a valid integer"))
          | some v => do
              let (_, pos) ← consume toks pos .RBracket "]"
              Except.ok (some v, pos)
        else Except.ok (none, pos)
      let (body, pos) ← parseBlock toks fuel pos
      .ok ({ name, triggerEvent := triggerToken.text, condition, priority, body,
             span := Span.new ruleToken.span.start pos }, pos)

/-- `Parser::parse_function` (rule span idiom `Span::new(start, self.pos)`
as in the source). -/
def parseFunction (toks : List Token) : Nat → Nat → Except ParseError (FunctionDef × Nat)
  | 0, _ => .error fuelError
  | fuel + 1, pos => do
      let (fnToken, pos) ← consume toks pos .Fn "fn"
      let (nameToken, pos) ← consume toks pos .Identifier "function name"
      let (_, pos) ← consume toks pos .LParen "("
      let (params, pos) ← parseFnParamsLoop toks fuel pos []
      let (_, pos) ← consume toks pos .RParen ")"
      let (returnType, pos) ←
        if checkT toks pos .Colon then do
          let pos := pos + 1
          let (t, pos) ← parseType toks fuel pos
          Except.ok (some t, pos)
        else Except.ok (none, pos)
      let (body, pos) ← parseBlock toks fuel pos
      .ok ({ name := nameToken.text, params, returnType, body,
             span := Span.new fnToken.span.start pos }, pos)

/-- The parameter loop of `parse_function` (`parse_type` for the type). -/
def parseFnParamsLoop (toks : List Token) :
    Nat → Nat → List ParamDef → Except ParseError ((List ParamDef) × Nat)
  | 0, _, _ => .error fuelError
  | fuel + 1, pos, acc => do
      if !(checkT toks pos .RParen) && !(isAtEnd toks pos) then
        let (nameToken, pos) ← consume toks pos .Identifier "parameter name"
        let (_, pos) ← consume toks pos .Colon ":"
        let (paramType, pos) ← parseType toks fuel pos
        let stop := prevEnd toks pos nameToken.span.start
        let param : ParamDef :=
          { name := nameToken.text, paramType,
            span := Span.new nameToken.span.start stop }
        let pos := if checkT toks pos .Comma then pos + 1 else pos
        parseFnParamsLoop toks fuel pos (param :: acc)
      else
        .ok (acc.reverse, pos)
termination_by structural fuel => fuel

/-- `Parser::parse_import`. -/
def parseImport (toks : List Token) : Nat → Nat → Except ParseError (ImportDef × Nat)
  | 0, _ => .error fuelError
  | fuel + 1, pos => do
      let (importToken, pos) ← consume toks pos .Import "import"
      let (first, pos) ← consume toks pos .Identifier "module path"
      let (path, pos) ← parseImportPathLoop toks fuel pos [first.text]
      let (items, pos) ←
        if checkT toks pos .LBrace then do
          let pos := pos + 1
          let (items, pos) ← parseImportItemsLoop toks fuel pos []
          let (_, pos) ← consume toks pos .RBrace "\x7d"
          Except.ok (some items, pos)
        else Except.ok (none, pos)
      let stop := prevEnd toks pos importToken.span.start
      .ok ({ path, items, span := Span.new importToken.span.start stop }, pos)

/-- The `while self.check(&TokenKind::Dot)` loop of `parse_import`. -/
def parseImportPathLoop (toks : List Token) :
    Nat → Nat → List String → Except ParseError ((List String) × Nat)
  | 0, _, _ => .error fuelError
  | fuel + 1, pos, acc => do
      if checkT toks pos .Dot then
        let pos := pos + 1
        let (next, pos) ← consume toks pos .Identifier "module path segment"
        parseImportPathLoop toks fuel pos (acc ++ [next.text])
      else
        .ok (acc, pos)
termination_by structural fuel => fuel

/-- The specific-import loop of `parse_import`. -/
def parseImportItemsLoop (toks : List Token) :
    Nat → Nat → List String → Except ParseError ((List String) × Nat)
  | 0, _, _ => .error fuelError
  | fuel + 1, pos, acc => do
      if !(checkT toks pos .RBrace) && !(isAtEnd toks pos) then
        let (item, pos) ← consume toks pos .Identifier "import item"
        let pos := if checkT toks pos .Comma then pos + 1 else pos
        parseImportItemsLoop toks fuel pos (acc ++ [item.text])
      else
        .ok (acc, pos)
termination_by structural fuel => fuel

/-- `Parser::parse_module_def` (returns the inlined `Item.moduleDef`). -/
def parseModuleDef (toks : List Token) : Nat → Nat → Except ParseError (Item × Nat)
  | 0, _ => .error fuelError
  | fuel + 1, pos => do
      let (moduleToken, pos) ← consume toks pos .Module "module"
      let (nameToken, pos) ← consume toks pos .Identifier "module name"
      let (_, pos) ← consume toks pos .LBrace "\x7b"
      let (items, pos) ← parseModuleDefItemsLoop toks fuel pos []
      let (endToken, pos) ← consume toks pos .RBrace "\x7d"
      .ok (.moduleDef nameToken.text items
            (Span.new moduleToken.span.start endToken.span.stop), pos)
termination_by structural fuel => fuel

/-- The item loop inside `parse_module_def`. -/
def parseModuleDefItemsLoop (toks : List Token) :
    Nat → Nat → List Item → Except ParseError ((List Item) × Nat)
  | 0, _, _ => .error fuelError
  | fuel + 1, pos, acc => do
      if !(checkT toks pos .RBrace) && !(isAtEnd toks pos) then
        let (item, pos) ← parseItem toks fuel pos
        parseModuleDefItemsLoop toks fuel pos (item :: acc)
      else
        .ok (acc.reverse, pos)
termination_by structural fuel => fuel

/-- `Parser::parse_entity` (three legacy surface forms). -/
def parseEntity (toks : List Token) : Nat → Nat → Except ParseError (EntityDef × Nat)
  | 0, _ => .error fuelError
  | fuel + 1, pos => do
      let (start, varName, pos) ←
        if checkT toks pos .EntityRef then
          match peekT toks pos with
          | some refToken =>
              Except.ok (refToken.span.start, some (refToken.text.drop 1), pos + 1)
          | none => Except.error (ParseError.unexpectedEof "entity")
        else if checkT toks pos .New then do
          let (newToken, pos) ← consume toks pos .New "new"
          let (_, pos) ← consume toks pos .Entity "entity"
          Except.ok (newToken.span.start, none, pos)
        else do
          let (entityToken, pos) ← consume toks pos .Entity "entity"
          if checkT toks pos .EntityRef then
            match peekT toks pos with
            | some refToken =>
                Except.ok (entityToken.span.start, some (refToken.text.drop 1), pos + 1)
            | none => Except.error (ParseError.unexpectedEof "entity")
          else if checkT toks pos .Identifier then
            if ((toks.get? (pos + 1)).map (fun t => decide (t.kind = TokenKind.LBrace))).getD false then
              match peekT toks pos with
              | some nameToken =>
                  Except.ok (entityToken.span.start, some nameToken.text, pos + 1)
              | none => Except.error (ParseError.unexpectedEof "entity")
            else
              Except.ok (entityToken.span.start, none, pos)
          else
            Except.ok (entityToken.span.start, none, pos)
      let (_, pos) ← consume toks pos .LBrace "\x7b"
      let (components, boundFunctions, pos) ← parseEntityBodyLoop toks fuel pos [] []
      let (endToken, pos) ← consume toks pos .RBrace "\x7d"
      .ok ({ varName, components, boundFunctions,
             span := Span.new start endToken.span.stop }, pos)

/-- `Parser::parse_bound_function`. -/
def parseBoundFunction (toks : List Token) : Nat → Nat → Except ParseError (BoundFunctionDef × Nat)
  | 0, _ => .error fuelError
  | fuel + 1, pos => do
      let (dotToken, pos) ← consume toks pos .Dot "."
      let (nameToken, pos) ← consume toks pos .Identifier "function name"
      let (_, pos) ← consume toks pos .Eq "="
      let (_, pos) ← consume toks pos .Choice "choice"
      let (_, pos) ← consume toks pos .LParen "("
      let (params, pos) ← parseChoiceParamsLoop toks fuel pos []
      let (_, pos) ← consume toks pos .RParen ")"
      let (returnType, pos) ←
        if checkT toks pos .Colon then do
          let pos := pos + 1
          let (t, pos) ← parseType toks fuel pos
          Except.ok (some t, pos)
        else Except.ok (none, pos)
      let (body, pos) ← parseBlock toks fuel pos
      let stop := prevEnd toks pos dotToken.span.start
      .ok ({ name := nameToken.text, params, returnType, body,
             span := Span.new dotToken.span.start stop }, pos)

/-- The parameter loop of `parse_bound_function`
(`parse_choice_param_type` for the type). -/
def parseChoiceParamsLoop (toks : List Token) :
    Nat → Nat → List ParamDef → Except ParseError ((List ParamDef) × Nat)
  | 0, _, _ => .error fuelError
  | fuel + 1, pos, acc => do
      if !(checkT toks pos .RParen) && !(isAtEnd toks pos) then
        let (nameToken, pos) ← consume toks pos .Identifier "parameter name"
        let (_, pos) ← consume toks pos .Colon ":"
        let (paramType, pos) ← parseChoiceParamType toks fuel pos
        let stop := prevEnd toks pos nameToken.span.start
        let param : ParamDef :=
          { name := nameToken.text, paramType,
            span := Span.new nameToken.span.start stop }
        let pos := if checkT toks pos .Comma then pos + 1 else pos
        parseChoiceParamsLoop toks fuel pos (param :: acc)
      else
        .ok (acc.reverse, pos)
termination_by structural fuel => fuel

/-- `Parser::parse_choice_param_type`: `&`-chains must consist solely of
component-type references, otherwise `InvalidSyntax`. -/
def parseChoiceParamType (toks : List Token) : Nat → Nat → Except ParseError (TypeExpr × Nat)
  | 0, _ => .error fuelError
  | fuel + 1, pos => do
      let (firstType, pos) ← parseType toks fuel pos
      if checkT toks pos .And then do
        let (types, pos) ← parseCompositeLoop toks fuel pos [firstType]
        if types.all (fun t => match t with | .component _ => true | _ => false) then
          .ok (.composite types, pos)
        else
          .error (.invalidSyn "Composite types (using &) can only contain component types")
      else
        .ok (firstType, pos)

/-- The `while self.check(&TokenKind::And)` loop of `parse_choice_param_type`. -/
def parseCompositeLoop (toks : List Token) :
    Nat → Nat → List TypeExpr → Except ParseError ((List TypeExpr) × Nat)
  | 0, _, _ => .error fuelError
  | fuel + 1, pos, acc => do
      if checkT toks pos .And then
        let pos := pos + 1
        let (t, pos) ← parseType toks fuel pos
        parseCompositeLoop toks fuel pos (acc ++ [t])
      else
        .ok (acc, pos)
termination_by structural fuel => fuel

/-- `Parser::parse_block`. -/
def parseBlock (toks : List Token) : Nat → Nat → Except ParseError (Block × Nat)
  | 0, _ => .error fuelError
  | fuel + 1, pos => do
      let (startToken, pos) ← consume toks pos .LBrace "\x7b"
      let (statements, pos) ← parseBlockStmtsLoop toks fuel pos []
      let (endToken, pos) ← consume toks pos .RBrace "\x7d"
      .ok (.mk statements (Span.new startToken.span.start endToken.span.stop), pos)
termination_by structural fuel => fuel

/-- The statement loop inside `parse_block`. -/
def parseBlockStmtsLoop (toks : List Token) :
    Nat → Nat → List Statement → Except ParseError ((List Statement) × Nat)
  | 0, _, _ => .error fuelError
  | fuel + 1, pos, acc => do
      if !(checkT toks pos .RBrace) && !(isAtEnd toks pos) then
        let (s, pos) ← parseStatement toks fuel pos
        parseBlockStmtsLoop toks fuel pos (s :: acc)
      else
        .ok (acc.reverse, pos)
termination_by structural fuel => fuel

/-- `Parser::parse_statement`. -/
def parseStatement (toks : List Token) : Nat → Nat → Except ParseError (Statement × Nat)
  | 0, _ => .error fuelError
  | fuel + 1, pos =>
      match peekT toks pos with
      | none => .error (.unexpectedEof "statement")
      | some token =>
        match token.kind with
        | .Let => parseLetStatement toks fuel pos
        | .If => do
            let (s, pos) ← parseIfInner toks fuel pos
            .ok (.ifS s, pos)
        | .For => parseForStatement toks fuel pos
        | .While => parseWhileStatement toks fuel pos
        | .Return => parseReturnStatement toks fuel pos
        | .Schedule => parseScheduleStatement toks fuel pos
        | .Cancel => parseCancelStatement toks fuel pos
        | .Create => parseCreateStatement toks fuel pos
        | .Delete => parseDeleteStatement toks fuel pos
        | _ => do
            let (e, pos) ← parseExpression toks fuel pos
            match peekT toks pos with
            | some opToken =>
                match opToken.kind with
                | .Eq | .PlusEq | .MinusEq | .StarEq | .SlashEq => do
                    let op : AssignOp :=
                      match opToken.kind with
                      | .Eq => .Assign
                      | .PlusEq => .AddAssign
                      | .MinusEq => .SubAssign
                      | .StarEq => .MulAssign
                      | _ => .DivAssign
                    let pos := pos + 1
                    let (value, pos) ← parseExpression toks fuel pos
                    let span :=
                      match e with
                      | .identifier _ s => s
                      | .fieldAccess _ _ s => s
                      | .indexAccess _ _ s => s
                      | _ => Span.new 0 0
                    .ok (.assignment (.mk e op value span), pos)
                | _ => .ok (.expr e, pos)
            | none => .ok (.expr e, pos)
termination_by structural fuel => fuel

/-- `Parser::parse_let_statement`. -/
def parseLetStatement (toks : List Token) : Nat → Nat → Except ParseError (Statement × Nat)
  | 0, _ => .error fuelError
  | fuel + 1, pos => do
      let (letToken, pos) ← consume toks pos .Let "let"
      let (nameToken, pos) ← consume toks pos .Identifier "variable name"
      let (typeAnnot, pos) ←
        if checkT toks pos .Colon then do
          let pos := pos + 1
          let (t, pos) ← parseType toks fuel pos
          Except.ok (some t, pos)
        else Except.ok (none, pos)
      let (_, pos) ← consume toks pos .Eq "="
      let (value, pos) ← parseExpression toks fuel pos
      let stop := prevEnd toks pos letToken.span.start
      .ok (.letS (.mk nameToken.text typeAnnot value
            (Span.new letToken.span.start stop)), pos)

/-- `Parser::parse_if_inner`. -/
def parseIfInner (toks : List Token) : Nat → Nat → Except ParseError (IfStatement × Nat)
  | 0, _ => .error fuelError
  | fuel + 1, pos => do
      let (ifToken, pos) ← consume toks pos .If "if"
      let (condition, pos) ← parseExpression toks fuel pos
      let (thenBlock, pos) ← parseBlock toks fuel pos
      let (elseBlock, pos) ←
        if checkT toks pos .Else then do
          let pos := pos + 1
          if checkT toks pos .If then do
            let (inner, pos) ← parseIfInner toks fuel pos
            Except.ok (some (ElseClause.elseIf inner), pos)
          else do
            let (b, pos) ← parseBlock toks fuel pos
            Except.ok (some (ElseClause.elseBlock b), pos)
        else Except.ok (none, pos)
      let stop := prevEnd toks pos ifToken.span.start
      .ok (.mk condition thenBlock elseBlock (Span.new ifToken.span.start stop), pos)
termination_by structural fuel => fuel

/-- `Parser::parse_for_statement`. -/
def parseForStatement (toks : List Token) : Nat → Nat → Except ParseError (Statement × Nat)
  | 0, _ => .error fuelError
  | fuel + 1, pos => do
      let (forToken, pos) ← consume toks pos .For "for"
      let (varToken, pos) ← consume toks pos .Identifier "loop variable"
      let (_, pos) ← consume toks pos .In "in"
      let (iterable, pos) ← parseExpression toks fuel pos
      let (body, pos) ← parseBlock toks fuel pos
      let stop := prevEnd toks pos forToken.span.start
      .ok (.forS (.mk varToken.text iterable body
            (Span.new forToken.span.start stop)), pos)
termination_by structural fuel => fuel

/-- `Parser::parse_while_statement`. -/
def parseWhileStatement (toks : List Token) : Nat → Nat → Except ParseError (Statement × Nat)
  | 0, _ => .error fuelError
  | fuel + 1, pos => do
      let (whileToken, pos) ← consume toks pos .While "while"
      let (condition, pos) ← parseExpression toks fuel pos
      let (body, pos) ← parseBlock toks fuel pos
      let stop := prevEnd toks pos whileToken.span.start
      .ok (.whileS (.mk condition body (Span.new whileToken.span.start stop)), pos)
termination_by structural fuel => fuel

/-- `Parser::parse_return_statement`. -/
def parseReturnStatement (toks : List Token) : Nat → Nat → Except ParseError (Statement × Nat)
  | 0, _ => .error fuelError
  | fuel + 1, pos => do
      let (returnToken, pos) ← consume toks pos .Return "return"
      let (value, pos) ←
        if !(checkT toks pos .RBrace) && !(isAtEnd toks pos) then
          match peekT toks pos with
          | some token =>
              match token.kind with
              | .Let | .If | .For | .While | .Return | .Schedule
              | .Cancel | .Create | .Delete => Except.ok (none, pos)
              | _ => do
                  let (e, pos) ← parseExpression toks fuel pos
                  Except.ok (some e, pos)
          | none => Except.ok (none, pos)
        else Except.ok (none, pos)
      let stop := prevEnd toks pos returnToken.span.start
      .ok (.returnS (.mk value (Span.new returnToken.span.start stop)), pos)

/-- `Parser::parse_schedule_statement`. -/
def parseScheduleStatement (toks : List Token) : Nat → Nat → Except ParseError (Statement × Nat)
  | 0, _ => .error fuelError
  | fuel + 1, pos => do
      let (scheduleToken, pos) ← consume toks pos .Schedule "schedule"
      let (recurring, pos) :=
        if checkT toks pos .Recurring then (true, pos + 1) else (false, pos)
      let (delay, interval, pos) ←
        if checkT toks pos .LBracket then do
          let pos := pos + 1
          let (paramName, pos) ← consume toks pos .Identifier "delay or interval"
          let (_, pos) ← consume toks pos .Colon ":"
          let (value, pos) ← parseExpression toks fuel pos
          let (delay, interval) :=
            if paramName.text = "delay" then (some value, none)
            else if paramName.text = "interval" then (none, some value)
            else (none, none)
          let (_, pos) ← consume toks pos .RBracket "]"
          Except.ok (delay, interval, pos)
        else Except.ok (none, none, pos)
      let (eventToken, pos) ← consume toks pos .Identifier "event name"
      let (_, pos) ← consume toks pos .LBrace "\x7b"
      let (fields, pos) ← parseScheduleFieldsLoop toks fuel pos []
      let (endToken, pos) ← consume toks pos .RBrace "\x7d"
      .ok (.schedule (.mk recurring delay interval eventToken.text fields
            (Span.new scheduleToken.span.start endToken.span.stop)), pos)

/-- The field loop inside `parse_schedule_statement`. -/
def parseScheduleFieldsLoop (toks : List Token) :
    Nat → Nat → List (String × Expr) → Except ParseError ((List (String × Expr)) × Nat)
  | 0, _, _ => .error fuelError
  | fuel + 1, pos, acc => do
      if !(checkT toks pos .RBrace) && !(isAtEnd toks pos) then
        let (fieldName, pos) ← consume toks pos .Identifier "field name"
        let (_, pos) ← consume toks pos .Colon ":"
        let (fieldValue, pos) ← parseExpression toks fuel pos
        parseScheduleFieldsLoop toks fuel pos (acc ++ [(fieldName.text, fieldValue)])
      else
        .ok (acc, pos)
termination_by structural fuel => fuel

/-- `Parser::parse_cancel_statement`. -/
def parseCancelStatement (toks : List Token) : Nat → Nat → Except ParseError (Statement × Nat)
  | 0, _ => .error fuelError
  | fuel + 1, pos => do
      let (cancelToken, pos) ← consume toks pos .Cancel "cancel"
      let (target, pos) ← parseExpression toks fuel pos
      let stop := prevEnd toks pos cancelToken.span.start
      .ok (.cancel (.mk target (Span.new cancelToken.span.start stop)), pos)

/-- `Parser::parse_create_statement`. -/
def parseCreateStatement (toks : List Token) : Nat → Nat → Except ParseError (Statement × Nat)
  | 0, _ => .error fuelError
  | fuel + 1, pos => do
      let (createToken, pos) ← consume toks pos .Create "create"
      let (_, pos) ← consume toks pos .Entity "entity"
      let (_, pos) ← consume toks pos .LBrace "\x7b"
      let (components, pos) ← parseComponentInitsLoop toks fuel pos []
      let (endToken, pos) ← consume toks pos .RBrace "\x7d"
      .ok (.create (.mk components
            (Span.new createToken.span.start endToken.span.stop)), pos)

/-- The component-initializer loop shared by `parse_create_statement` and the
clone-override branch of `parse_primary_expr` (identical loops in the
source). -/
def parseComponentInitsLoop (toks : List Token) :
    Nat → Nat → List ComponentInit → Except ParseError ((List ComponentInit) × Nat)
  | 0, _, _ => .error fuelError
  | fuel + 1, pos, acc => do
      if !(checkT toks pos .RBrace) && !(isAtEnd toks pos) then
        let (c, pos) ← parseComponentInit toks fuel pos
        parseComponentInitsLoop toks fuel pos (acc ++ [c])
      else
        .ok (acc, pos)
termination_by structural fuel => fuel

/-- `Parser::parse_component_init`. -/
def parseComponentInit (toks : List Token) : Nat → Nat → Except ParseError (ComponentInit × Nat)
  | 0, _ => .error fuelError
  | fuel + 1, pos => do
      let (nameToken, pos) ← consume toks pos .Identifier "component name"
      let (_, pos) ← consume toks pos .LBrace "\x7b"
      let (fields, pos) ← parseComponentInitFieldsLoop toks fuel pos []
      let (endToken, pos) ← consume toks pos .RBrace "\x7d"
      .ok (.mk nameToken.text fields
            (Span.new nameToken.span.start endToken.span.stop), pos)
termination_by structural fuel => fuel

/-- The field loop inside `parse_component_init`
(field names via `parse_field_name_token`). -/
def parseComponentInitFieldsLoop (toks : List Token) :
    Nat → Nat → List (String × Expr) → Except ParseError ((List (String × Expr)) × Nat)
  | 0, _, _ => .error fuelError
  | fuel + 1, pos, acc => do
      if !(checkT toks pos .RBrace) && !(isAtEnd toks pos) then
        let (fieldNameToken, pos) ← parseFieldNameToken toks fuel pos
        let (_, pos) ← consume toks pos .Colon ":"
        let (fieldValue, pos) ← parseExpression toks fuel pos
        parseComponentInitFieldsLoop toks fuel pos
          (acc ++ [(fieldNameToken.text, fieldValue)])
      else
        .ok (acc, pos)
termination_by structural fuel => fuel

/-- `Parser::parse_field_name_token`. -/
def parseFieldNameToken (toks : List Token) : Nat → Nat → Except ParseError (Token × Nat)
  | 0, _ => .error fuelError
  | _ + 1, pos =>
      match peekT toks pos with
      | some token =>
          match token.kind with
          | .Identifier | .Entity | .Event | .TypeId =>
              match advanceT toks pos with
              | some (t, pos) => .ok (t, pos)
              | none => .error (.unexpectedEof "field name")
          | _ => consume toks pos .Identifier "field name"
      | none => .error (.unexpectedEof "field name")

/-- `Parser::parse_delete_statement`. -/
def parseDeleteStatement (toks : List Token) : Nat → Nat → Except ParseError (Statement × Nat)
  | 0, _ => .error fuelError
  | fuel + 1, pos => do
      let (deleteToken, pos) ← consume toks pos .Delete "delete"
      let (entity, pos) ← parseExpression toks fuel pos
      let stop := prevEnd toks pos deleteToken.span.start
      .ok (.delete (.mk entity (Span.new deleteToken.span.start stop)), pos)

/-- `Parser::parse_expression`. -/
def parseExpression (toks : List Token) : Nat → Nat → Except ParseError (Expr × Nat)
  | 0, _ => .error fuelError
  | fuel + 1, pos => parseOrExpr toks fuel pos
termination_by structural fuel => fuel

/-- `Parser::parse_or_expr`. -/
def parseOrExpr (toks : List Token) : Nat → Nat → Except ParseError (Expr × Nat)
  | 0, _ => .error fuelError
  | fuel + 1, pos => do
      let (left, pos) ← parseAndExpr toks fuel pos
      parseOrLoop toks fuel pos left
termination_by structural fuel => fuel

/-- The `||` loop of `parse_or_expr`. -/
def parseOrLoop (toks : List Token) : Nat → Nat → Expr → Except ParseError (Expr × Nat)
  | 0, _, _ => .error fuelError
  | fuel + 1, pos, left => do
      if checkT toks pos .OrOr then
        let pos := pos + 1
        let (right, pos) ← parseAndExpr toks fuel pos
        parseOrLoop toks fuel pos
          (.binary left .Or right (Span.new left.span.start right.span.stop))
      else
        .ok (left, pos)
termination_by structural fuel => fuel

/-- `Parser::parse_and_expr`. -/
def parseAndExpr (toks : List Token) : Nat → Nat → Except ParseError (Expr × Nat)
  | 0, _ => .error fuelError
  | fuel + 1, pos => do
      let (left, pos) ← parseEqualityExpr toks fuel pos
      parseAndLoop toks fuel pos left
termination_by structural fuel => fuel

/-- The `&&` loop of `parse_and_expr`. -/
def parseAndLoop (toks : List Token) : Nat → Nat → Expr → Except ParseError (Expr × Nat)
  | 0, _, _ => .error fuelError
  | fuel + 1, pos, left => do
      if checkT toks pos .AndAnd then
        let pos := pos + 1
        let (right, pos) ← parseEqualityExpr toks fuel pos
        parseAndLoop toks fuel pos
          (.binary left .And right (Span.new left.span.start right.span.stop))
      else
        .ok (left, pos)
termination_by structural fuel => fuel

/-- `Parser::parse_equality_expr`. -/
def parseEqualityExpr (toks : List Token) : Nat → Nat → Except ParseError (Expr × Nat)
  | 0, _ => .error fuelError
  | fuel + 1, pos => do
      let (left, pos) ← parseComparisonExpr toks fuel pos
      parseEqualityLoop toks fuel pos left
termination_by structural fuel => fuel

/-- The `==`/`!=` loop of `parse_equality_expr`. -/
def parseEqualityLoop (toks : List Token) : Nat → Nat → Expr → Except ParseError (Expr × Nat)
  | 0, _, _ => .error fuelError
  | fuel + 1, pos, left => do
      match peekT toks pos with
      | some token =>
          match token.kind with
          | .EqEq => do
              let pos := pos + 1
              let (right, pos) ← parseComparisonExpr toks fuel pos
              parseEqualityLoop toks fuel pos
                (.binary left .Eq right (Span.new left.span.start right.span.stop))
          | .NotEq => do
              let pos := pos + 1
              let (right, pos) ← parseComparisonExpr toks fuel pos
              parseEqualityLoop toks fuel pos
                (.binary left .NotEq right (Span.new left.span.start right.span.stop))
          | _ => .ok (left, pos)
      | none => .ok (left, pos)
termination_by structural fuel => fuel

/-- `Parser::parse_comparison_expr`. -/
def parseComparisonExpr (toks : List Token) : Nat → Nat → Except ParseError (Expr × Nat)
  | 0, _ => .error fuelError
  | fuel + 1, pos => do
      let (left, pos) ← parseAdditiveExpr toks fuel pos
      parseComparisonLoop toks fuel pos left
termination_by structural fuel => fuel

/-- The `<`,`<=`,`>`,`>=` loop of `parse_comparison_expr`. -/
def parseComparisonLoop (toks : List Token) : Nat → Nat → Expr → Except ParseError (Expr × Nat)
  | 0, _, _ => .error fuelError
  | fuel + 1, pos, left => do
      let opOf : TokenKind → Option BinaryOp := fun k =>
        match k with
        | .Lt => some .Lt
        | .LtEq => some .LtEq
        | .Gt => some .Gt
        | .GtEq => some .GtEq
        | _ => none
      match peekT toks pos with
      | some token =>
          match opOf token.kind with
          | some op => do
              let pos := pos + 1
              let (right, pos) ← parseAdditiveExpr toks fuel pos
              parseComparisonLoop toks fuel pos
                (.binary left op right (Span.new left.span.start right.span.stop))
          | none => .ok (left, pos)
      | none => .ok (left, pos)
termination_by structural fuel => fuel

/-- `Parser::parse_additive_expr`. -/
def parseAdditiveExpr (toks : List Token) : Nat → Nat → Except ParseError (Expr × Nat)
  | 0, _ => .error fuelError
  | fuel + 1, pos => do
      let (left, pos) ← parseMultiplicativeExpr toks fuel pos
      parseAdditiveLoop toks fuel pos left
termination_by structural fuel => fuel

/-- The `+`/`-` loop of `parse_additive_expr`. -/
def parseAdditiveLoop (toks : List Token) : Nat → Nat → Expr → Except ParseError (Expr × Nat)
  | 0, _, _ => .error fuelError
  | fuel + 1, pos, left => do
      let opOf : TokenKind → Option BinaryOp := fun k =>
        match k with
        | .Plus => some .Add
        | .Minus => some .Sub
        | _ => none
      match peekT toks pos with
      | some token =>
          match opOf token.kind with
          | some op => do
              let pos := pos + 1
              let (right, pos) ← parseMultiplicativeExpr toks fuel pos
              parseAdditiveLoop toks fuel pos
                (.binary left op right (Span.new left.span.start right.span.stop))
          | none => .ok (left, pos)
      | none => .ok (left, pos)
termination_by structural fuel => fuel

/-- `Parser::parse_multiplicative_expr`. -/
def parseMultiplicativeExpr (toks : List Token) : Nat → Nat → Except ParseError (Expr × Nat)
  | 0, _ => .error fuelError
  | fuel + 1, pos => do
      let (left, pos) ← parseUnaryExpr toks fuel pos
      parseMultiplicativeLoop toks fuel pos left
termination_by structural fuel => fuel

/-- The `*`,`/`,`%` loop of `parse_multiplicative_expr`. -/
def parseMultiplicativeLoop (toks : List Token) : Nat → Nat → Expr → Except ParseError (Expr × Nat)
  | 0, _, _ => .error fuelError
  | fuel + 1, pos, left => do
      let opOf : TokenKind → Option BinaryOp := fun k =>
        match k with
        | .Star => some .Mul
        | .Slash => some .Div
        | .Percent => some .Mod
        | _ => none
      match peekT toks pos with
      | some token =>
          match opOf token.kind with
          | some op => do
              let pos := pos + 1
              let (right, pos) ← parseUnaryExpr toks fuel pos
              parseMultiplicativeLoop toks fuel pos
                (.binary left op right (Span.new left.span.start right.span.stop))
          | none => .ok (left, pos)
      | none => .ok (left, pos)
termination_by structural fuel => fuel

/-- `Parser::parse_unary_expr`. -/
def parseUnaryExpr (toks : List Token) : Nat → Nat → Except ParseError (Expr × Nat)
  | 0, _ => .error fuelError
  | fuel + 1, pos =>
      match peekT toks pos with
      | some token =>
          match token.kind with
          | .Not => do
              let pos := pos + 1
              let (e, pos) ← parseUnaryExpr toks fuel pos
              .ok (.unary .Not e (Span.new token.span.start e.span.stop), pos)
          | .Minus => do
              let pos := pos + 1
              let (e, pos) ← parseUnaryExpr toks fuel pos
              .ok (.unary .Neg e (Span.new token.span.start e.span.stop), pos)
          | _ => parsePostfixExpr toks fuel pos
      | none => parsePostfixExpr toks fuel pos
termination_by structural fuel => fuel

/-- `Parser::parse_postfix_expr`. -/
def parsePostfixExpr (toks : List Token) : Nat → Nat → Except ParseError (Expr × Nat)
  | 0, _ => .error fuelError
  | fuel + 1, pos => do
      let (e, pos) ← parsePrimaryExpr toks fuel pos
      parsePostfixLoop toks fuel pos e
termination_by structural fuel => fuel

/-- The postfix loop (`.field`, `.method(args)`, `[index]`). -/
def parsePostfixLoop (toks : List Token) : Nat → Nat → Expr → Except ParseError (Expr × Nat)
  | 0, _, _ => .error fuelError
  | fuel + 1, pos, e => do
      if checkT toks pos .Dot then do
        let spanStart := e.span.start
        let pos := pos + 1
        let (fieldToken, pos) ←
          match peekT toks pos with
          | some token =>
              match token.kind with
              | .Identifier | .Entity | .Event | .TypeId =>
                  match advanceT toks pos with
                  | some (t, pos) => Except.ok (t, pos)
                  | none => Except.error (ParseError.unexpectedEof "field name")
              | _ => consume toks pos .Identifier "field name"
          | none => Except.error (ParseError.unexpectedEof "field name")
        if checkT toks pos .LParen then do
          let pos := pos + 1
          let (args, pos) ← parseCallArgsLoop toks fuel pos []
          let (endToken, pos) ← consume toks pos .RParen ")"
          parsePostfixLoop toks fuel pos
            (.methodCall e fieldToken.text args (Span.new spanStart endToken.span.stop))
        else
          parsePostfixLoop toks fuel pos
            (.fieldAccess e fieldToken.text (Span.new spanStart fieldToken.span.stop))
      else if checkT toks pos .LBracket then do
        let spanStart := e.span.start
        let pos := pos + 1
        let (index, pos) ← parseExpression toks fuel pos
        let (endToken, pos) ← consume toks pos .RBracket "]"
        parsePostfixLoop toks fuel pos
          (.indexAccess e index (Span.new spanStart endToken.span.stop))
      else
        .ok (e, pos)
termination_by structural fuel => fuel

/-- The argument loop shared by method calls and function calls (identical
loops in the source: parse expressions until `)`, skipping commas). -/
def parseCallArgsLoop (toks : List Token) :
    Nat → Nat → List Expr → Except ParseError ((List Expr) × Nat)
  | 0, _, _ => .error fuelError
  | fuel + 1, pos, acc => do
      if !(checkT toks pos .RParen) && !(isAtEnd toks pos) then
        let (arg, pos) ← parseExpression toks fuel pos
        let pos := if checkT toks pos .Comma then pos + 1 else pos
        parseCallArgsLoop toks fuel pos (acc ++ [arg])
      else
        .ok (acc, pos)
termination_by structural fuel => fuel

/-- The list-literal element loop of `parse_primary_expr` (until `]`,
skipping commas). -/
def parseListElementsLoop (toks : List Token) :
    Nat → Nat → List Expr → Except ParseError ((List Expr) × Nat)
  | 0, _, _ => .error fuelError
  | fuel + 1, pos, acc => do
      if !(checkT toks pos .RBracket) && !(isAtEnd toks pos) then
        let (e, pos) ← parseExpression toks fuel pos
        let pos := if checkT toks pos .Comma then pos + 1 else pos
        parseListElementsLoop toks fuel pos (acc ++ [e])
      else
        .ok (acc, pos)
termination_by structural fuel => fuel

/-- `Parser::parse_primary_expr`. -/
def parsePrimaryExpr (toks : List Token) : Nat → Nat → Except ParseError (Expr × Nat)
  | 0, _ => .error fuelError
  | fuel + 1, pos =>
      match advanceT toks pos with
      | none => .error (.unexpectedEof "expression")
      | some (token, pos) =>
        match token.kind with
        | .IntegerLiteral =>
            match parseI64 token.text with
            | some v => .ok (.literal (.integer v), pos)
            | none =>
                .error (.invalidSyn ("Invalid integer literal: '" ++ token.text ++ "'"))
        | .FloatLiteral =>
            match parseF64 token.text with
            | some v => .ok (.literal (.float v), pos)
            | none =>
                .error (.invalidSyn ("Invalid float literal: '" ++ token.text ++ "'"))
        | .DecimalLiteral =>
            .ok (.literal (.decimal (trimTrailingD token.text)), pos)
        | .StringLiteral => .ok (.literal (.string (innerText token.text)), pos)
        | .StringLiteralSingle => .ok (.literal (.string (innerText token.text)), pos)
        | .True => .ok (.literal (.boolean true), pos)
        | .False => .ok (.literal (.boolean false), pos)
        | .Null => .ok (.literal .null, pos)
        | .Entities => do
            let (_, pos) ← consume toks pos .Having "having"
            let (componentToken, pos) ← consume toks pos .Identifier "component name"
            .ok (.entitiesHaving componentToken.text
                  (Span.new token.span.start componentToken.span.stop), pos)
        | .Clone => do
            let (source, pos) ← parsePostfixExpr toks fuel pos
            if checkT toks pos .LBrace then do
              let pos := pos + 1
              let (overrides, pos) ← parseComponentInitsLoop toks fuel pos []
              let (endToken, pos) ← consume toks pos .RBrace "\x7d"
              .ok (.cloneEntity source overrides
                    (Span.new token.span.start endToken.span.stop), pos)
            else
              .ok (.cloneEntity source []
                    (Span.new token.span.start (prevEnd toks pos token.span.start)), pos)
        | .Entity => .ok (.identifier token.text token.span, pos)
        | .Event => .ok (.identifier token.text token.span, pos)
        | .Identifier =>
            if checkT toks pos .LParen then do
              let pos := pos + 1
              let (args, pos) ← parseCallArgsLoop toks fuel pos []
              let (endToken, pos) ← consume toks pos .RParen ")"
              .ok (.call token.text args (Span.new token.span.start endToken.span.stop), pos)
            else
              .ok (.identifier token.text token.span, pos)
        | .EntityRef => .ok (.entityRef (token.text.drop 1) token.span, pos)
        | .LParen => do
            let (inner, pos) ← parseExpression toks fuel pos
            let (endToken, pos) ← consume toks pos .RParen ")"
            .ok (.paren inner (Span.new token.span.start endToken.span.stop), pos)
        | .LBracket => do
            let (elements, pos) ← parseListElementsLoop toks fuel pos []
            let (endToken, pos) ← consume toks pos .RBracket "]"
            .ok (.listLit elements (Span.new token.span.start endToken.span.stop), pos)
        | _ => .error (.unexpectedToken token.text "expression" token.span.start)
termination_by structural fuel => fuel
end

/-- Top-level `parse` from `parser/mod.rs`, supplied with ample fuel: one unit
per token plus slack covers every recursion the grammar can make on the
input. -/
def parse (toks : List Token) : Except ParseError Module :=
  (parseModule toks (8 * toks.length + 64) 0).map Prod.fst

/-! ## Semantic analyzer (`analyzer/mod.rs`)

The analyzer mutates `&mut self` (error accumulation in pass 2, symbol
registration in pass 1); the embedding threads the `Analyzer` value
explicitly.  `HashMap<String, _>` is modelled as an association list whose
`insert` overwrites the binding of an existing key — exactly the lookup
behaviour the analyzer relies on (it only ever calls `get`). -/

/-- `HashMap::insert` / `IndexMap::insert`: replace the binding in place if
the key exists, otherwise append. -/
def smapInsert {α : Type} (m : List (String × α)) (k : String) (v : α) :
    List (String × α) :=
  match m with
  | [] => [(k, v)]
  | (k', v') :: rest =>
      if k' = k then (k, v) :: rest else (k', v') :: smapInsert rest k v

/-- `HashMap::get` / `IndexMap::get`. -/
def smapGet? {α : Type} (m : List (String × α)) (k : String) : Option α :=
  match m with
  | [] => none
  | (k', v') :: rest => if k' = k then some v' else smapGet? rest k

/-- `SemanticError` from `analyzer/mod.rs`. -/
inductive SemanticError where
  | undefinedComponent (name : String)
  | undefinedVariable (name : String)
  | undefinedFunction (name : String)
  | undefinedEvent (name : String)
  | typeMismatch (expected : String) (found : String)
  | duplicateDefinition (name : String)
  | invalidAssignmentTarget
  | bclWriteViolation
  | fieldNotFound (component : String) (field : String)
deriving DecidableEq

/-- The `#[error(...)]` display string of a `SemanticError`. -/
def SemanticError.render : SemanticError → String
  | .undefinedComponent name => "Undefined component '" ++ name ++ "'"
  | .undefinedVariable name => "Undefined variable '" ++ name ++ "'"
  | .undefinedFunction name => "Undefined function '" ++ name ++ "'"
  | .undefinedEvent name => "Undefined event '" ++ name ++ "'"
  | .typeMismatch expected found =>
      "Type mismatch: expected " ++ expected ++ ", found " ++ found
  | .duplicateDefinition name => "Duplicate definition of '" ++ name ++ "'"
  | .invalidAssignmentTarget => "Invalid assignment target"
  | .bclWriteViolation => "Cannot modify state in BCL (choice function)"
  | .fieldNotFound component field =>
      "Field '" ++ field ++ "' not found in component '" ++ component ++ "'"

/-- `Type` from `analyzer/mod.rs` (`Ty` here: `Type` is reserved in Lean). -/
inductive Ty where
  | string
  | boolean
  | integer
  | float
  | decimal
  | entityId
  | component (name : String)
  | list (inner : Ty)
  | optional (inner : Ty)
  | composite (types : List Ty)
  | void
  | unknown

mutual
/-- `Type::from_type_expr`. -/
def Ty.fromTypeExpr : TypeExpr → Ty
  | .string => .string
  | .boolean => .boolean
  | .integer => .integer
  | .float => .float
  | .decimal => .decimal
  | .id => .entityId
  | .component name => .component name
  | .list inner => .list (Ty.fromTypeExpr inner)
  | .optional inner => .optional (Ty.fromTypeExpr inner)
  | .composite types => .composite (Ty.fromTypeExprList types)

/-- The `types.iter().map(Type::from_type_expr)` of the composite arm. -/
def Ty.fromTypeExprList : List TypeExpr → List Ty
  | [] => []
  | t :: ts => Ty.fromTypeExpr t :: Ty.fromTypeExprList ts
end

/-- `ComponentInfo` from `analyzer/mod.rs`. -/
structure ComponentInfo where
  name : String
  fields : List (String × Ty)

/-- `FunctionInfo` from `analyzer/mod.rs`. -/
structure FunctionInfo where
  name : String
  params : List (String × Ty)
  returnType : Ty

/-- `TrackerInfo` from `analyzer/mod.rs`. -/
structure TrackerInfo where
  component : String
  event : String

/-- `SymbolTable` from `analyzer/mod.rs`. -/
structure SymbolTable where
  components : List (String × ComponentInfo)
  functions : List (String × FunctionInfo)
  trackers : List TrackerInfo

/-- `SymbolTable::new`. -/
def SymbolTable.new : SymbolTable := ⟨[], [], []⟩

/-- `SymbolTable::add_component`. -/
def SymbolTable.addComponent (s : SymbolTable) (name : String)
    (fields : List (String × Ty)) : SymbolTable :=
  { s with components := smapInsert s.components name ⟨name, fields⟩ }

/-- `SymbolTable::get_component`. -/
def SymbolTable.getComponent (s : SymbolTable) (name : String) : Option ComponentInfo :=
  smapGet? s.components name

/-- `SymbolTable::add_function`. -/
def SymbolTable.addFunction (s : SymbolTable) (name : String)
    (params : List (String × Ty)) (returnType : Ty) : SymbolTable :=
  { s with functions := smapInsert s.functions name ⟨name, params, returnType⟩ }

/-- `SymbolTable::get_function`. -/
def SymbolTable.getFunction (s : SymbolTable) (name : String) : Option FunctionInfo :=
  smapGet? s.functions name

/-- `SymbolTable::add_tracker`. -/
def SymbolTable.addTracker (s : SymbolTable) (component event : String) : SymbolTable :=
  { s with trackers := s.trackers ++ [⟨component, event⟩] }

/-- `Scope` from `analyzer/mod.rs` (`Box` erased); `vars` models the source
field `variables` (a reserved word in Lean). -/
inductive Scope where
  | mk (vars : List (String × Ty)) (parent : Option Scope)

/-- `Scope::new`. -/
def Scope.new : Scope := .mk [] none

/-- `Scope::with_parent`. -/
def Scope.withParent (parent : Scope) : Scope := .mk [] (some parent)

/-- `Scope::define`. -/
def Scope.define : Scope → String → Ty → Scope
  | .mk vars parent, name, typ => .mk (smapInsert vars name typ) parent

/-- `Scope::lookup` (inner frame first, then the parent chain). -/
def Scope.lookup : Scope → String → Option Ty
  | .mk vars parent, name =>
      match smapGet? vars name with
      | some t => some t
      | none =>
          match parent with
          | some p => Scope.lookup p name
          | none => none

/-! ### Typed AST (`analyzer/mod.rs`) -/

mutual
/-- `TypedExpr` from `analyzer/mod.rs`. -/
inductive TypedExpr where
  | mk (kind : TypedExprKind) (typ : Ty)

/-- `TypedExprKind` from `analyzer/mod.rs` (no clone variant exists here). -/
inductive TypedExprKind where
  | literal (l : Literal)
  | identifier (name : String)
  | entityRef (name : String)
  | fieldAccess (base : TypedExpr) (field : String)
  | indexAccess (base : TypedExpr) (index : TypedExpr)
  | binary (left : TypedExpr) (op : BinaryOp) (right : TypedExpr)
  | unary (op : UnaryOp) (e : TypedExpr)
  | call (name : String) (args : List TypedExpr)
  | methodCall (base : TypedExpr) (method : String) (args : List TypedExpr)
  | hasComponent (base : TypedExpr) (comp : String)
  | cast (e : TypedExpr) (ty : Ty)
  | list (elements : List TypedExpr)
  | entitiesHaving (comp : String)
end

def TypedExpr.kind : TypedExpr → TypedExprKind
  | .mk k _ => k

def TypedExpr.typ : TypedExpr → Ty
  | .mk _ t => t

mutual
/-- `TypedStatement` from `analyzer/mod.rs`. -/
inductive TypedStatement where
  | letS (name : String) (varType : Ty) (value : TypedExpr)
  | assignment (target : TypedExpr) (op : AssignOp) (value : TypedExpr)
  | ifS (condition : TypedExpr) (thenBlock : TypedBlock)
        (elseBlock : Option TypedElseClause)
  | forS (varName : String) (iterable : TypedExpr) (body : TypedBlock)
  | whileS (condition : TypedExpr) (body : TypedBlock)
  | returnS (value : Option TypedExpr)
  | schedule (recurring : Bool) (delay : Option TypedExpr)
             (interval : Option TypedExpr) (eventName : String)
             (fields : List (String × TypedExpr))
  | cancel (target : TypedExpr)
  | create (components : List TypedComponentInit)
  | delete (entity : TypedExpr)
  | expr (e : TypedExpr)

/-- `TypedElseClause` from `analyzer/mod.rs`. -/
inductive TypedElseClause where
  | elseIf (condition : TypedExpr) (thenBlock : TypedBlock)
           (elseBlock : Option TypedElseClause)
  | elseBlock (b : TypedBlock)

/-- `TypedBlock` from `analyzer/mod.rs`. -/
inductive TypedBlock where
  | mk (statements : List TypedStatement)

/-- `TypedComponentInit` from `analyzer/mod.rs`. -/
inductive TypedComponentInit where
  | mk (name : String) (fields : List (String × TypedExpr))
end

def TypedBlock.statements : TypedBlock → List TypedStatement
  | .mk s => s

def TypedComponentInit.name : TypedComponentInit → String
  | .mk n _ => n

def TypedComponentInit.fields : TypedComponentInit → List (String × TypedExpr)
  | .mk _ f => f

/-- `TypedField` from `analyzer/mod.rs`. -/
structure TypedField where
  name : String
  fieldType : Ty
  optional : Bool

/-- `TypedComponent` from `analyzer/mod.rs`. -/
structure TypedComponent where
  name : String
  fields : List TypedField

/-- `TypedParam` from `analyzer/mod.rs`. -/
structure TypedParam where
  name : String
  paramType : Ty

/-- `TypedRule` from `analyzer/mod.rs`. -/
structure TypedRule where
  name : Option String
  triggerEvent : String
  condition : Option TypedExpr
  priority : Option Int
  body : TypedBlock

/-- `TypedFunction` from `analyzer/mod.rs`. -/
structure TypedFunction where
  name : String
  params : List TypedParam
  returnType : Ty
  body : TypedBlock

/-- `TypedTracker` from `analyzer/mod.rs`. -/
structure TypedTracker where
  component : String
  event : String

/-- `TypedBoundFunction` from `analyzer/mod.rs`. -/
structure TypedBoundFunction where
  name : String
  params : List TypedParam
  returnType : Ty
  body : TypedBlock

/-- `TypedEntity` from `analyzer/mod.rs`: `varName` models the source field
`variable` (a Lean keyword).  The struct has no name field — per its doc
comment, "Entities are nameless; variables reference them." -/
structure TypedEntity where
  varName : Option String
  components : List TypedComponentInit
  boundFunctions : List TypedBoundFunction

/-- `TypedItem` from `analyzer/mod.rs`.  The `Tracker` variant is declared in
the source; note that `analyze_items` can never produce it, since the
parser's `Item` enum has no tracker variant. -/
inductive TypedItem where
  | component (c : TypedComponent)
  | rule (r : TypedRule)
  | function (f : TypedFunction)
  | tracker (t : TypedTracker)
  | entity (e : TypedEntity)

/-- `TypedModule` from `analyzer/mod.rs`. -/
structure TypedModule where
  items : List TypedItem
  symbols : SymbolTable

/-! ### The analyzer itself -/

/-- `Analyzer` from `analyzer/mod.rs` (context threaded explicitly). -/
structure Analyzer where
  symbols : SymbolTable
  errors : List SemanticError

/-- `Analyzer::new`: seeds the nine built-in function signatures. -/
def Analyzer.new : Analyzer :=
  let s := SymbolTable.new
  let s := s.addFunction "min" [("a", .float), ("b", .float)] .float
  let s := s.addFunction "max" [("a", .float), ("b", .float)] .float
  let s := s.addFunction "floor" [("x", .float)] .integer
  let s := s.addFunction "ceil" [("x", .float)] .integer
  let s := s.addFunction "round" [("x", .float)] .integer
  let s := s.addFunction "abs" [("x", .float)] .float
  let s := s.addFunction "random" [] .float
  let s := s.addFunction "random_range" [("min", .float), ("max", .float)] .float
  let s := s.addFunction "len" [("list", .list .unknown)] .integer
  { symbols := s, errors := [] }

/-- Push a semantic error (`self.errors.push(...)`). -/
def Analyzer.pushError (a : Analyzer) (e : SemanticError) : Analyzer :=
  { a with errors := a.errors ++ [e] }

/-- One item of `Analyzer::collect_definitions`.  The source also lists an
`Item::Tracker` arm, but the parser's `Item` enum has no tracker variant
(trackers were removed from the grammar), so that arm has no counterpart
here; everything else falls into the `_ => {}` arm. -/
def Analyzer.collectItem (a : Analyzer) : Item → Analyzer
  | .component comp =>
      let fields := comp.fields.foldl
        (fun fs field => smapInsert fs field.name (Ty.fromTypeExpr field.fieldType)) []
      { a with symbols := a.symbols.addComponent comp.name fields }
  | .function func =>
      let params := func.params.map (fun p => (p.name, Ty.fromTypeExpr p.paramType))
      let returnType := (func.returnType.map Ty.fromTypeExpr).getD .void
      { a with symbols := a.symbols.addFunction func.name params returnType }
  | _ => a

/-- `Analyzer::collect_definitions` (pass 1). -/
def Analyzer.collectDefinitions (a : Analyzer) (m : Module) : Analyzer :=
  m.items.foldl Analyzer.collectItem a

mutual

/-- `Analyzer::analyze_expr` (pass 2 expression typing).

The source match has no arm for `Expr::CloneEntity`: the variant was added
to the parser without updating the analyzer, so the Rust match is
non-exhaustive and the crate does not compile as committed.  The embedding
totalizes that missing arm with an inert result (`Unknown`-typed null
literal, no errors recorded); no statement below depends on that arm. -/
def Analyzer.analyzeExpr (a : Analyzer) (e : Expr) (scope : Scope) :
    TypedExpr × Analyzer :=
  match e with
  | .literal lit =>
      let typ : Ty :=
        match lit with
        | .string _ => .string
        | .integer _ => .integer
        | .float _ => .float
        | .decimal _ => .decimal
        | .boolean _ => .boolean
        | .null => .optional .unknown
      (.mk (.literal lit) typ, a)
  | .identifier name _ =>
      match scope.lookup name with
      | some t => (.mk (.identifier name) t, a)
      | none =>
          match a.symbols.getComponent name with
          | some _ => (.mk (.identifier name) (.component name), a)
          | none =>
              (.mk (.identifier name) .unknown,
               a.pushError (.undefinedVariable name))
  | .entityRef name _ => (.mk (.entityRef name) .entityId, a)
  | .fieldAccess base field _ =>
      let (baseTyped, a) := Analyzer.analyzeExpr a base scope
      let fieldType : Ty :=
        match baseTyped.typ with
        | .component compName =>
            match a.symbols.getComponent compName with
            | some c => (smapGet? c.fields field).getD .unknown
            | none => .unknown
        | _ => .unknown
      (.mk (.fieldAccess baseTyped field) fieldType, a)
  | .indexAccess base index _ =>
      let (baseTyped, a) := Analyzer.analyzeExpr a base scope
      let (indexTyped, a) := Analyzer.analyzeExpr a index scope
      let elemType : Ty :=
        match baseTyped.typ with
        | .list inner => inner
        | _ => .unknown
      (.mk (.indexAccess baseTyped indexTyped) elemType, a)
  | .binary left op right _ =>
      let (leftTyped, a) := Analyzer.analyzeExpr a left scope
      let (rightTyped, a) := Analyzer.analyzeExpr a right scope
      let resultType : Ty :=
        match op with
        | .Eq | .NotEq | .Lt | .LtEq | .Gt | .GtEq | .And | .Or => .boolean
        | .Add | .Sub | .Mul | .Div | .Mod =>
            match leftTyped.typ, rightTyped.typ with
            | .float, _ => .float
            | _, .float => .float
            | .decimal, _ => .decimal
            | _, .decimal => .decimal
            | _, _ => .integer
      (.mk (.binary leftTyped op rightTyped) resultType, a)
  | .unary op inner _ =>
      let (innerTyped, a) := Analyzer.analyzeExpr a inner scope
      let resultType : Ty :=
        match op with
        | .Not => .boolean
        | .Neg => innerTyped.typ
      (.mk (.unary op innerTyped) resultType, a)
  | .call name args _ =>
      let (argsTyped, a) := Analyzer.analyzeExprList a args scope
      match a.symbols.getFunction name with
      | some f => (.mk (.call name argsTyped) f.returnType, a)
      | none =>
          (.mk (.call name argsTyped) .unknown,
           a.pushError (.undefinedFunction name))
  | .methodCall base method args _ =>
      let (baseTyped, a) := Analyzer.analyzeExpr a base scope
      let (argsTyped, a) := Analyzer.analyzeExprList a args scope
      (.mk (.methodCall baseTyped method argsTyped) .unknown, a)
  | .hasComponent base comp _ =>
      let (baseTyped, a) := Analyzer.analyzeExpr a base scope
      let a :=
        match a.symbols.getComponent comp with
        | some _ => a
        | none => a.pushError (.undefinedComponent comp)
      (.mk (.hasComponent baseTyped comp) .boolean, a)
  | .cast inner toType _ =>
      let (innerTyped, a) := Analyzer.analyzeExpr a inner scope
      let targetType := Ty.fromTypeExpr toType
      (.mk (.cast innerTyped targetType) targetType, a)
  | .listLit elements _ =>
      let (elementsTyped, a) := Analyzer.analyzeExprList a elements scope
      let elemType := (elementsTyped.head?.map TypedExpr.typ).getD .unknown
      (.mk (.list elementsTyped) (.list elemType), a)
  | .paren inner _ => Analyzer.analyzeExpr a inner scope
  | .entitiesHaving component _ =>
      let a :=
        match a.symbols.getComponent component with
        | some _ => a
        | none => a.pushError (.undefinedComponent component)
      (.mk (.entitiesHaving component) (.list .entityId), a)
  | .cloneEntity _ _ _ =>
      (.mk (.literal .null) .unknown, a)

/-- The `args.iter().map(|a| self.analyze_expr(a, scope))` idiom. -/
def Analyzer.analyzeExprList (a : Analyzer) (es : List Expr) (scope : Scope) :
    List TypedExpr × Analyzer :=
  match es with
  | [] => ([], a)
  | e :: rest =>
      let (t, a) := Analyzer.analyzeExpr a e scope
      let (ts, a) := Analyzer.analyzeExprList a rest scope
      (t :: ts, a)

/-- The `(name, expr)`-pair mapping idiom (schedule fields, component-init
fields). -/
def Analyzer.analyzeFieldExprs (a : Analyzer) (fs : List (String × Expr))
    (scope : Scope) : List (String × TypedExpr) × Analyzer :=
  match fs with
  | [] => ([], a)
  | (name, e) :: rest =>
      let (t, a) := Analyzer.analyzeExpr a e scope
      let (ts, a) := Analyzer.analyzeFieldExprs a rest scope
      ((name, t) :: ts, a)

end

/-- The component-initializer mapping shared by `analyze_entity` and the
`Statement::Create` arm of `analyze_statement` (identical code in the
source): validate each component name, then type its field initializers. -/
def Analyzer.analyzeComponentInits (a : Analyzer) (comps : List ComponentInit)
    (scope : Scope) : List TypedComponentInit × Analyzer :=
  match comps with
  | [] => ([], a)
  | comp :: rest =>
      let a :=
        match a.symbols.getComponent comp.name with
        | some _ => a
        | none => a.pushError (.undefinedComponent comp.name)
      let (fields, a) := a.analyzeFieldExprs comp.fields scope
      let (restTyped, a) := Analyzer.analyzeComponentInits a rest scope
      (.mk comp.name fields :: restTyped, a)

mutual

/-- `Analyzer::analyze_statement`.  The scope is `&mut` in the source (only
the `Let` arm extends it), so the updated scope is returned. -/
def Analyzer.analyzeStatement (a : Analyzer) (stmt : Statement) (scope : Scope) :
    TypedStatement × Scope × Analyzer :=
  match stmt with
  | .letS (.mk name typeAnnot value _) =>
      let (valueTyped, a) := a.analyzeExpr value scope
      let varType := (typeAnnot.map Ty.fromTypeExpr).getD valueTyped.typ
      let scope := scope.define name varType
      (.letS name varType valueTyped, scope, a)
  | .assignment (.mk target op value _) =>
      let (targetTyped, a) := a.analyzeExpr target scope
      let (valueTyped, a) := a.analyzeExpr value scope
      (.assignment targetTyped op valueTyped, scope, a)
  | .ifS (.mk condition thenBlock elseBlock _) =>
      let (conditionTyped, a) := a.analyzeExpr condition scope
      let (thenTyped, a) := Analyzer.analyzeBlock a thenBlock (Scope.withParent scope)
      let (elseTyped, a) :=
        match elseBlock with
        | some clause =>
            let (c, a) := Analyzer.analyzeElseClause a clause scope
            (some c, a)
        | none => (none, a)
      (.ifS conditionTyped thenTyped elseTyped, scope, a)
  | .forS (.mk varName iterable body _) =>
      let (iterableTyped, a) := a.analyzeExpr iterable scope
      let elemType : Ty :=
        match iterableTyped.typ with
        | .list inner => inner
        | .component _ => .unknown
        | _ => .unknown
      let bodyScope := (Scope.withParent scope).define varName elemType
      let (bodyTyped, a) := Analyzer.analyzeBlock a body bodyScope
      (.forS varName iterableTyped bodyTyped, scope, a)
  | .whileS (.mk condition body _) =>
      let (conditionTyped, a) := a.analyzeExpr condition scope
      let (bodyTyped, a) := Analyzer.analyzeBlock a body (Scope.withParent scope)
      (.whileS conditionTyped bodyTyped, scope, a)
  | .returnS (.mk value _) =>
      let (valueTyped, a) :=
        match value with
        | some v =>
            let (t, a) := a.analyzeExpr v scope
            (some t, a)
        | none => (none, a)
      (.returnS valueTyped, scope, a)
  | .schedule (.mk recurring delay interval eventName fields _) =>
      let (delayTyped, a) :=
        match delay with
        | some d =>
            let (t, a) := a.analyzeExpr d scope
            (some t, a)
        | none => (none, a)
      let (intervalTyped, a) :=
        match interval with
        | some i =>
            let (t, a) := a.analyzeExpr i scope
            (some t, a)
        | none => (none, a)
      let (fieldsTyped, a) := a.analyzeFieldExprs fields scope
      (.schedule recurring delayTyped intervalTyped eventName fieldsTyped, scope, a)
  | .cancel (.mk target _) =>
      let (targetTyped, a) := a.analyzeExpr target scope
      (.cancel targetTyped, scope, a)
  | .create (.mk components _) =>
      let (componentsTyped, a) := a.analyzeComponentInits components scope
      (.create componentsTyped, scope, a)
  | .delete (.mk entity _) =>
      let (entityTyped, a) := a.analyzeExpr entity scope
      (.delete entityTyped, scope, a)
  | .expr e =>
      let (typedExpr, a) := a.analyzeExpr e scope
      (.expr typedExpr, scope, a)

/-- The statement loop of `Analyzer::analyze_block` (statements thread the
block's scope). -/
def Analyzer.analyzeStatements (a : Analyzer) (stmts : List Statement)
    (scope : Scope) : List TypedStatement × Analyzer :=
  match stmts with
  | [] => ([], a)
  | stmt :: rest =>
      let (t, scope, a) := Analyzer.analyzeStatement a stmt scope
      let (ts, a) := Analyzer.analyzeStatements a rest scope
      (t :: ts, a)

/-- `Analyzer::analyze_block`. -/
def Analyzer.analyzeBlock (a : Analyzer) (block : Block) (scope : Scope) :
    TypedBlock × Analyzer :=
  match block with
  | .mk statements _ =>
      let (ts, a) := Analyzer.analyzeStatements a statements scope
      (.mk ts, a)

/-- `Analyzer::analyze_else_clause`. -/
def Analyzer.analyzeElseClause (a : Analyzer) (clause : ElseClause)
    (scope : Scope) : TypedElseClause × Analyzer :=
  match clause with
  | .elseIf (.mk condition thenBlock elseBlock _) =>
      let (conditionTyped, a) := a.analyzeExpr condition scope
      let (thenTyped, a) := Analyzer.analyzeBlock a thenBlock (Scope.withParent scope)
      let (elseTyped, a) :=
        match elseBlock with
        | some c =>
            let (t, a) := Analyzer.analyzeElseClause a c scope
            (some t, a)
        | none => (none, a)
      (.elseIf conditionTyped thenTyped elseTyped, a)
  | .elseBlock block =>
      let (typedBlock, a) := Analyzer.analyzeBlock a block (Scope.withParent scope)
      (.elseBlock typedBlock, a)

end

/-- `Analyzer::analyze_component`. -/
def Analyzer.analyzeComponent (a : Analyzer) (comp : ComponentDef) :
    TypedComponent × Analyzer :=
  (⟨comp.name,
    comp.fields.map (fun f =>
      ⟨f.name, Ty.fromTypeExpr f.fieldType, f.optional⟩)⟩, a)

/-- `Analyzer::analyze_bound_function`. -/
def Analyzer.analyzeBoundFunction (a : Analyzer) (func : BoundFunctionDef) :
    TypedBoundFunction × Analyzer :=
  let scope := func.params.foldl
    (fun sc p => sc.define p.name (Ty.fromTypeExpr p.paramType)) Scope.new
  let (body, a) := a.analyzeBlock func.body scope
  let returnType := (func.returnType.map Ty.fromTypeExpr).getD .void
  (⟨func.name,
    func.params.map (fun p => ⟨p.name, Ty.fromTypeExpr p.paramType⟩),
    returnType, body⟩, a)

/-- `Analyzer::analyze_entity`. -/
def Analyzer.analyzeEntity (a : Analyzer) (entity : EntityDef) :
    TypedEntity × Analyzer :=
  let scope := Scope.new
  let (components, a) := a.analyzeComponentInits entity.components scope
  let (boundFunctions, a) :=
    entity.boundFunctions.foldl
      (fun (acc : List TypedBoundFunction × Analyzer) func =>
        let (f, a) := Analyzer.analyzeBoundFunction acc.2 func
        (acc.1 ++ [f], a))
      ([], a)
  (⟨entity.varName, components, boundFunctions⟩, a)

/-- `Analyzer::analyze_rule` (implicit `event`/`entity` bindings, both
`EntityId`). -/
def Analyzer.analyzeRule (a : Analyzer) (rule : RuleDef) : TypedRule × Analyzer :=
  let scope := (Scope.new.define "event" .entityId).define "entity" .entityId
  let (condition, a) :=
    match rule.condition with
    | some c =>
        let (t, a) := a.analyzeExpr c scope
        (some t, a)
    | none => (none, a)
  let (body, a) := a.analyzeBlock rule.body scope
  (⟨rule.name, rule.triggerEvent, condition, rule.priority, body⟩, a)

/-- `Analyzer::analyze_function`. -/
def Analyzer.analyzeFunction (a : Analyzer) (func : FunctionDef) :
    TypedFunction × Analyzer :=
  let scope := func.params.foldl
    (fun sc p => sc.define p.name (Ty.fromTypeExpr p.paramType)) Scope.new
  let (body, a) := a.analyzeBlock func.body scope
  let returnType := (func.returnType.map Ty.fromTypeExpr).getD .void
  (⟨func.name,
    func.params.map (fun p => ⟨p.name, Ty.fromTypeExpr p.paramType⟩),
    returnType, body⟩, a)

/-- `Analyzer::analyze_items` (pass 2 over the item list; `Import` and
`ModuleDef` yield nothing).  The source also lists an `Item::Tracker` arm,
absent here because the parser's `Item` enum has no tracker variant. -/
def Analyzer.analyzeItems (a : Analyzer) (items : List Item) :
    List TypedItem × Analyzer :=
  match items with
  | [] => ([], a)
  | item :: rest =>
      let (typedItem, a) : Option TypedItem × Analyzer :=
        match item with
        | .component comp =>
            let (c, a) := a.analyzeComponent comp
            (some (.component c), a)
        | .rule rule =>
            let (r, a) := a.analyzeRule rule
            (some (.rule r), a)
        | .function func =>
            let (f, a) := a.analyzeFunction func
            (some (.function f), a)
        | .entity entity =>
            let (e, a) := a.analyzeEntity entity
            (some (.entity e), a)
        | .importItem _ => (none, a)
        | .moduleDef _ _ _ => (none, a)
      let (restTyped, a) := Analyzer.analyzeItems a rest
      (match typedItem with
       | some t => t :: restTyped
       | none => restTyped, a)

/-- `Analyzer::analyze`: collection pass, then type-checking pass; `Ok`
exactly when the accumulated error list is empty, `Err` with the whole list
otherwise. -/
def Analyzer.analyze (a : Analyzer) (m : Module) :
    Except (List SemanticError) TypedModule :=
  let a := a.collectDefinitions m
  let (typedItems, a) := a.analyzeItems m.items
  if a.errors = [] then
    .ok ⟨typedItems, a.symbols⟩
  else
    .error a.errors

/-- Top-level `analyze` from `analyzer/mod.rs`: a fresh analyzer, with the
error list flattened to a newline-joined string. -/
def analyze (m : Module) : Except String TypedModule :=
  (Analyzer.new.analyze m).mapError
    (fun errors => String.intercalate "\n" (errors.map SemanticError.render))

/-! ## IR generator (`ir/mod.rs`)

`IndexMap` is modelled by the same insertion-ordered association list as
`HashMap` (`smapInsert`/`smapGet?`); `IndexMap::insert` keeps the original
position of an existing key, which is exactly `smapInsert`. -/

/-- `IRError` from `ir/mod.rs`. -/
inductive IRError where
  | generationError (message : String)

/-- `SourceFile` from `ir/mod.rs`. -/
structure SourceFile where
  path : String
  content : String
  language : String

/-- `SourceMap` from `ir/mod.rs`. -/
structure SourceMap where
  files : List SourceFile

/-- `IRMetadata` from `ir/mod.rs`. -/
structure IRMetadata where
  compiledAt : String
  compilerVersion : String
  sourceHash : Option String

/-- `IRType` from `ir/mod.rs`. -/
inductive IRType where
  | number
  | string
  | boolean
  | entity
  | list (element : IRType)
  | map (key : IRType) (value : IRType)

/-- `IRValue` from `ir/mod.rs` (`Number` carries an exact rational). -/
inductive IRValue where
  | null
  | boolean (b : Bool)
  | number (n : Rat)
  | string (s : String)
  | list (l : List IRValue)
  | object (o : List (String × IRValue))

/-- `IRField` from `ir/mod.rs`. -/
structure IRField where
  name : String
  fieldType : IRType
  default : Option IRValue

/-- `IRComponent` from `ir/mod.rs`. -/
structure IRComponent where
  id : Nat
  name : String
  fields : List IRField

/-- `IRTrigger` from `ir/mod.rs`. -/
structure IRTrigger where
  triggerType : String
  event : Option String
  bindings : Option (List (String × String))

/-- `IRFilter` from `ir/mod.rs`. -/
structure IRFilter where
  components : List String

/-- `IRExpression` from `ir/mod.rs` (`If` is `ifE` here). -/
inductive IRExpression where
  | literal (value : IRValue)
  | var (name : String)
  | param (name : String)
  | field (entity : String) (component : String) (field : String)
  | binary (op : String) (left : IRExpression) (right : IRExpression)
  | unary (op : String) (e : IRExpression)
  | call (function : String) (args : List IRExpression)
  | ifE (condition : IRExpression) (thenExpr : IRExpression) (elseExpr : IRExpression)

/-- `IRComponentInit` from `ir/mod.rs`. -/
structure IRComponentInit where
  name : String
  fields : List (String × IRExpression)

/-- `IRAction` from `ir/mod.rs` (`variable` is `varName` here). -/
inductive IRAction where
  | modify (entity : IRExpression) (component : String) (field : String)
           (op : String) (value : IRExpression)
  | schedule (event : String) (source : Option IRExpression)
             (delay : Option IRExpression)
             (fields : Option (List (String × IRExpression)))
  | emit (event : String) (fields : Option (List (String × IRExpression)))
  | spawn (components : List IRComponentInit)
  | despawn (entity : IRExpression)
  | addComponent (entity : IRExpression) (component : IRComponentInit)
  | removeComponent (entity : IRExpression) (component : String)
  | conditional (condition : IRExpression) (thenActions : List IRAction)
                (elseActions : Option (List IRAction))
  | loop (varName : String) (iterable : IRExpression) (body : List IRAction)

/-- `IRRule` from `ir/mod.rs`: id, optional name, trigger, optional filter,
optional condition, actions.  Note the struct has no priority field. -/
structure IRRule where
  id : Nat
  name : Option String
  trigger : IRTrigger
  filter : Option IRFilter
  condition : Option IRExpression
  actions : List IRAction

/-- `IRParam` from `ir/mod.rs`. -/
structure IRParam where
  name : String
  paramType : IRType

/-- `IRFunction` from `ir/mod.rs`. -/
structure IRFunction where
  id : Nat
  name : String
  params : List IRParam
  returnType : IRType
  body : IRExpression

/-- `IRTracker` from `ir/mod.rs`. -/
structure IRTracker where
  id : Nat
  component : String
  event : String

/-- `IRBoundFunction` from `ir/mod.rs`. -/
structure IRBoundFunction where
  params : List IRParam
  returnType : IRType
  body : IRExpression
  source : Option String

/-- `IREntity` from `ir/mod.rs`: numeric id, optional name, component data,
optional bound functions. -/
structure IREntity where
  id : Nat
  name : Option String
  components : List (String × List (String × IRValue))
  boundFunctions : Option (List (String × IRBoundFunction))

/-- `IRInitialState` from `ir/mod.rs`. -/
structure IRInitialState where
  entities : List IREntity

/-- `IRModule` from `ir/mod.rs`. -/
structure IRModule where
  version : String
  module : String
  metadata : Option IRMetadata
  components : List IRComponent
  rules : List IRRule
  functions : List IRFunction
  trackers : List IRTracker
  constants : List (String × IRValue)
  initialState : Option IRInitialState
  sourceMap : Option SourceMap

/-- `CompilerOptions` from `lib.rs`. -/
structure CompilerOptions where
  includeSourceMap : Bool
  prettyPrint : Bool
  optimize : Bool

/-- `CompilerOptions::default`. -/
def CompilerOptions.default : CompilerOptions := ⟨false, false, false⟩

/-- `IRGenerator` from `ir/mod.rs`: the five per-kind id counters. -/
structure IRGenerator where
  componentIdCounter : Nat
  ruleIdCounter : Nat
  functionIdCounter : Nat
  trackerIdCounter : Nat
  entityIdCounter : Nat

/-- `IRGenerator::new`. -/
def IRGenerator.new : IRGenerator := ⟨0, 0, 0, 0, 0⟩

/-- `IRGenerator::next_component_id`. -/
def IRGenerator.nextComponentId (g : IRGenerator) : Nat × IRGenerator :=
  (g.componentIdCounter, { g with componentIdCounter := g.componentIdCounter + 1 })

/-- `IRGenerator::next_rule_id`. -/
def IRGenerator.nextRuleId (g : IRGenerator) : Nat × IRGenerator :=
  (g.ruleIdCounter, { g with ruleIdCounter := g.ruleIdCounter + 1 })

/-- `IRGenerator::next_function_id`. -/
def IRGenerator.nextFunctionId (g : IRGenerator) : Nat × IRGenerator :=
  (g.functionIdCounter, { g with functionIdCounter := g.functionIdCounter + 1 })

/-- `IRGenerator::next_tracker_id`. -/
def IRGenerator.nextTrackerId (g : IRGenerator) : Nat × IRGenerator :=
  (g.trackerIdCounter, { g with trackerIdCounter := g.trackerIdCounter + 1 })

/-- `IRGenerator::next_entity_id`. -/
def IRGenerator.nextEntityId (g : IRGenerator) : Nat × IRGenerator :=
  (g.entityIdCounter, { g with entityIdCounter := g.entityIdCounter + 1 })

/-- `IRGenerator::convert_type` (`&self` only — pure). -/
def convertType : Ty → IRType
  | .string => .string
  | .boolean => .boolean
  | .integer => .number
  | .float => .number
  | .decimal => .number
  | .entityId => .entity
  | .component _ => .entity
  | .composite _ => .entity
  | .list inner => .list (convertType inner)
  | .optional inner => convertType inner
  | .void => .number
  | .unknown => .number

/-- `IRGenerator::convert_literal`. -/
def convertLiteral : Literal → IRValue
  | .string s => .string s
  | .integer n => .number (n : Rat)
  | .float x => .number x
  | .decimal s => ((parseF64 s).map IRValue.number).getD .null
  | .boolean b => .boolean b
  | .null => .null

/-- `IRGenerator::convert_binary_op`. -/
def convertBinaryOp : BinaryOp → String
  | .Add => "add"
  | .Sub => "subtract"
  | .Mul => "multiply"
  | .Div => "divide"
  | .Mod => "modulo"
  | .Eq => "eq"
  | .NotEq => "neq"
  | .Lt => "lt"
  | .LtEq => "lte"
  | .Gt => "gt"
  | .GtEq => "gte"
  | .And => "and"
  | .Or => "or"

/-- `IRGenerator::convert_unary_op`. -/
def convertUnaryOp : UnaryOp → String
  | .Neg => "negate"
  | .Not => "not"

/-- `IRGenerator::convert_assign_op`. -/
def convertAssignOp : AssignOp → String
  | .Assign => "set"
  | .AddAssign => "add"
  | .SubAssign => "subtract"
  | .MulAssign => "multiply"
  | .DivAssign => "divide"

mutual

/-- `IRGenerator::generate_expression`. -/
def generateExpression : TypedExpr → IRExpression
  | .mk kind _ => generateExpressionFromKind kind

/-- `IRGenerator::generate_expression_from_kind`.  The final arm is the
source's catch-all `_ =>` (it covers `MethodCall`, `HasComponent`, `Cast`
and `EntitiesHaving`, the only remaining variants). -/
def generateExpressionFromKind : TypedExprKind → IRExpression
  | .literal lit => .literal (convertLiteral lit)
  | .identifier name => .var name
  | .entityRef name => .var ("@" ++ name)
  | .fieldAccess base field =>
      match base with
      | .mk (.fieldAccess entityExpr component) _ =>
          match entityExpr with
          | .mk (.identifier entity) _ => .field entity component field
          | _ => .var field
      | _ => .var field
  | .binary left op right =>
      .binary (convertBinaryOp op) (generateExpression left) (generateExpression right)
  | .unary op inner => .unary (convertUnaryOp op) (generateExpression inner)
  | .call name args => .call name (generateExpressionList args)
  | .indexAccess base index =>
      .call "get" [generateExpression base, generateExpression index]
  | .list elements => .call "list" (generateExpressionList elements)
  | _ => .literal .null

/-- The argument/element mapping of calls and list literals. -/
def generateExpressionList : List TypedExpr → List IRExpression
  | [] => []
  | e :: rest => generateExpression e :: generateExpressionList rest

end

/-- `IRGenerator::extract_entity_component`. -/
def extractEntityComponent (e : TypedExpr) : TypedExpr × String :=
  match e with
  | .mk (.fieldAccess base component) _ => (base, component)
  | _ => (e, "Unknown")

/-- `IRGenerator::generate_component_init`. -/
def generateComponentInit (init : TypedComponentInit) : IRComponentInit :=
  ⟨init.name,
   init.fields.foldl (fun fs p => smapInsert fs p.1 (generateExpression p.2)) []⟩

/-- `IRGenerator::generate_function_body`: the first `return` statement with
a value, lowered; defaults to the literal number `0`. -/
def generateFunctionBody (block : TypedBlock) : IRExpression :=
  go block.statements
where
  go : List TypedStatement → IRExpression
    | [] => .literal (.number 0)
    | .returnS (some e) :: _ => generateExpression e
    | _ :: rest => go rest

mutual

/-- `IRGenerator::generate_statement_action` (`&self` only — pure).  The
final arm is the source's catch-all `_ => None` (it covers `Let`, `While`,
`Return`, `Cancel` and `Expr`, plus assignments whose target is not a field
access via the inner `else`). -/
def generateStatementAction : TypedStatement → Option IRAction
  | .assignment target op value =>
      match target with
      | .mk (.fieldAccess base field) _ =>
          let (entity, component) := extractEntityComponent base
          some (.modify (generateExpressionFromKind entity.kind) component field
                  (convertAssignOp op) (generateExpression value))
      | _ => none
  | .ifS condition thenBlock elseBlock =>
      let thenActions := generateBlockActions thenBlock
      let elseActions :=
        match elseBlock with
        | some clause => some (generateElseClauseActions clause)
        | none => none
      some (.conditional (generateExpression condition) thenActions elseActions)
  | .forS varName iterable body =>
      some (.loop varName (generateExpression iterable) (generateBlockActions body))
  | .schedule _ delay _ eventName fields =>
      let fieldMap := fields.foldl (fun fs p => smapInsert fs p.1 (generateExpression p.2)) []
      some (.schedule eventName none (delay.map generateExpression)
              (if fieldMap.isEmpty then none else some fieldMap))
  | .create components =>
      some (.spawn (components.map generateComponentInit))
  | .delete entity =>
      some (.despawn (generateExpression entity))
  | _ => none

/-- `IRGenerator::generate_block_actions`: push the action of each statement
that yields one. -/
def generateBlockActions (block : TypedBlock) : List IRAction :=
  match block with
  | .mk statements => generateStatementActions statements

/-- The statement loop of `generate_block_actions`. -/
def generateStatementActions : List TypedStatement → List IRAction
  | [] => []
  | stmt :: rest =>
      match generateStatementAction stmt with
      | some action => action :: generateStatementActions rest
      | none => generateStatementActions rest

/-- `IRGenerator::generate_else_clause_actions`. -/
def generateElseClauseActions : TypedElseClause → List IRAction
  | .elseIf condition thenBlock elseBlock =>
      let thenActions := generateBlockActions thenBlock
      let elseActions :=
        match elseBlock with
        | some c => some (generateElseClauseActions c)
        | none => none
      [.conditional (generateExpression condition) thenActions elseActions]
  | .elseBlock block => generateBlockActions block

end

/-- `IRGenerator::generate_field` (`&self` only — pure). -/
def generateField (field : TypedField) : IRField :=
  ⟨field.name, convertType field.fieldType, none⟩

/-- `IRGenerator::generate_component`. -/
def IRGenerator.generateComponent (g : IRGenerator) (comp : TypedComponent) :
    IRComponent × IRGenerator :=
  let (id, g) := g.nextComponentId
  (⟨id, comp.name, comp.fields.map generateField⟩, g)

/-- `IRGenerator::generate_rule`. -/
def IRGenerator.generateRule (g : IRGenerator) (rule : TypedRule) :
    IRRule × IRGenerator :=
  let actions := generateBlockActions rule.body
  let (id, g) := g.nextRuleId
  (⟨id, rule.name,
    ⟨"event", some rule.triggerEvent, none⟩,
    none,
    rule.condition.map generateExpression,
    actions⟩, g)

/-- `IRGenerator::generate_function`. -/
def IRGenerator.generateFunction (g : IRGenerator) (func : TypedFunction) :
    IRFunction × IRGenerator :=
  let params := func.params.map (fun p => IRParam.mk p.name (convertType p.paramType))
  let body := generateFunctionBody func.body
  let (id, g) := g.nextFunctionId
  (⟨id, func.name, params, convertType func.returnType, body⟩, g)

/-- `IRGenerator::generate_tracker`. -/
def IRGenerator.generateTracker (g : IRGenerator) (tracker : TypedTracker) :
    IRTracker × IRGenerator :=
  let (id, g) := g.nextTrackerId
  (⟨id, tracker.component, tracker.event⟩, g)

/-- `IRGenerator::expression_to_value`: entity fields admit literals only;
a non-literal degrades to `Null` (the source also prints a warning to
stderr, a side effect with no bearing on the value). -/
def expressionToValue (e : TypedExpr) : IRValue :=
  match e with
  | .mk (.literal lit) _ => convertLiteral lit
  | _ => .null

/-- `IRGenerator::generate_bound_function`. -/
def generateBoundFunction (func : TypedBoundFunction) : IRBoundFunction :=
  ⟨func.params.map (fun p => IRParam.mk p.name (convertType p.paramType)),
   convertType func.returnType,
   generateFunctionBody func.body,
   none⟩

/-- `IRGenerator::generate_entity`.

The source reads `entity.name.clone()` for the `name` field, but
`TypedEntity` has no `name` field — only `variable` — so that line does not
typecheck (the crate's own integration test reads the same value as
`entities[0].variable`).  The embedding uses the unique type-correct
reading, `entity.variable`: the binding recorded by the parser becomes the
emitted entity name. -/
def IRGenerator.generateEntity (g : IRGenerator) (entity : TypedEntity) :
    IREntity × IRGenerator :=
  let (id, g) := g.nextEntityId
  let components := entity.components.foldl
    (fun acc comp =>
      let fields := comp.fields.foldl
        (fun fs p => smapInsert fs p.1 (expressionToValue p.2)) []
      smapInsert acc comp.name fields) []
  let boundFunctions :=
    if entity.boundFunctions.isEmpty then none
    else some (entity.boundFunctions.foldl
      (fun fs func => smapInsert fs func.name (generateBoundFunction func)) [])
  (⟨id, entity.varName, components, boundFunctions⟩, g)

/-- `generate_timestamp` from `ir/mod.rs` (intentionally approximate
calendar arithmetic), as a function of the epoch seconds. -/
def generateTimestamp (secs : Nat) : String :=
  let daysSinceEpoch := secs / 86400
  let remainingSecs := secs % 86400
  let hours := remainingSecs / 3600
  let minutes := (remainingSecs % 3600) / 60
  let seconds := remainingSecs % 60
  let yearsSince1970 := daysSinceEpoch / 365
  let year := 1970 + yearsSince1970
  let daysInYear := daysSinceEpoch % 365
  let month := daysInYear / 30 + 1
  let day := daysInYear % 30 + 1
  pad4 year ++ "-" ++ pad2 (min month 12) ++ "-" ++ pad2 (min day 31) ++ "T" ++
    pad2 hours ++ ":" ++ pad2 minutes ++ ":" ++ pad2 seconds ++ "Z"
where
  pad2 (n : Nat) : String := if n < 10 then "0" ++ toString n else toString n
  pad4 (n : Nat) : String :=
    if n < 10 then "000" ++ toString n
    else if n < 100 then "00" ++ toString n
    else if n < 1000 then "0" ++ toString n
    else toString n

/-- Modelled from the spec: `metadata.compiler_version` is stamped with the
build's own version string (`env!("CARGO_PKG_VERSION")`); the crate manifest
is not under `src/`, and the concrete value is irrelevant to every statement
below. -/
def compilerVersion : String := "0.1.0"

/-- The item loop of `IRGenerator::generate`: distribute typed items into
the five per-kind vectors, threading the id counters. -/
def IRGenerator.generateItems (g : IRGenerator) (items : List TypedItem) :
    (List IRComponent × List IRRule × List IRFunction × List IRTracker ×
     List IREntity) × IRGenerator :=
  match items with
  | [] => (([], [], [], [], []), g)
  | item :: rest =>
      match item with
      | .component comp =>
          let (c, g) := g.generateComponent comp
          let ((cs, rs, fs, ts, es), g) := IRGenerator.generateItems g rest
          ((c :: cs, rs, fs, ts, es), g)
      | .rule rule =>
          let (r, g) := g.generateRule rule
          let ((cs, rs, fs, ts, es), g) := IRGenerator.generateItems g rest
          ((cs, r :: rs, fs, ts, es), g)
      | .function func =>
          let (f, g) := g.generateFunction func
          let ((cs, rs, fs, ts, es), g) := IRGenerator.generateItems g rest
          ((cs, rs, f :: fs, ts, es), g)
      | .tracker tracker =>
          let (t, g) := g.generateTracker tracker
          let ((cs, rs, fs, ts, es), g) := IRGenerator.generateItems g rest
          ((cs, rs, fs, t :: ts, es), g)
      | .entity entity =>
          let (e, g) := g.generateEntity entity
          let ((cs, rs, fs, ts, es), g) := IRGenerator.generateItems g rest
          ((cs, rs, fs, ts, e :: es), g)

/-- `IRGenerator::generate`.  `now` supplies the wall clock consumed by
`generate_timestamp` (a side effect in the source). -/
def IRGenerator.generate (g : IRGenerator) (typedModule : TypedModule)
    (options : CompilerOptions) (source : Option String)
    (sourcePath : Option String)
    (additionalSources : List (String × String × String)) (now : Nat) :
    Except IRError IRModule :=
  let ((components, rules, functions, trackers, entities), _) :=
    g.generateItems typedModule.items
  let sourceMap : Option SourceMap :=
    if options.includeSourceMap then
      let files : List SourceFile :=
        (match source, sourcePath with
         | some src, some path =>
             let language :=
               if path.endsWith ".bcl" then "bcl"
               else if path.endsWith ".bdl" then "bdl"
               else "brl"
             [⟨path, src, language⟩]
         | _, _ => []) ++
        additionalSources.map (fun t => ⟨t.1, t.2.1, t.2.2⟩)
      if files.isEmpty then none else some ⟨files⟩
    else none
  let initialState : Option IRInitialState :=
    if entities.isEmpty then none else some ⟨entities⟩
  .ok
    { version := "1.0"
      module := "unnamed"
      metadata := some ⟨generateTimestamp now, compilerVersion, none⟩
      components, rules, functions, trackers
      constants := []
      initialState
      sourceMap }

/-- Top-level `generate` from `ir/mod.rs` (fresh generator, no source map
inputs), with errors flattened to strings as at the public boundary. -/
def generate (typedModule : TypedModule) (options : CompilerOptions) (now : Nat) :
    Except String IRModule :=
  (IRGenerator.new.generate typedModule options none none [] now).mapError
    (fun e => match e with | .generationError m => "IR generation error: " ++ m)

/-- `generate_with_source` from `ir/mod.rs`. -/
def generateWithSource (typedModule : TypedModule) (options : CompilerOptions)
    (source : String) (sourcePath : String) (now : Nat) : Except String IRModule :=
  (IRGenerator.new.generate typedModule options (some source) (some sourcePath) [] now).mapError
    (fun e => match e with | .generationError m => "IR generation error: " ++ m)

/-! ## Compilation pipeline (`lib.rs`)

The pipeline starts from the token stream: the lexer is outside the
specified core (spec §1 treats it as a black box producing a `Vec<Token>`),
so the embedded `compile_to_typed_ast` takes the tokens that `tokenize`
would have produced. -/

/-- `CompileError` from `lib.rs`. -/
inductive CompileError where
  | lexerError (message : String)
  | parserError (message : String)
  | semanticError (message : String)
  | irError (message : String)
deriving DecidableEq

/-- `compile_to_typed_ast` from `lib.rs`, from the token stream on: parse,
then analyze, each error flattened to its display string. -/
def compileToTypedAst (toks : List Token) : Except CompileError TypedModule := do
  let ast ← (parse toks).mapError (fun e => CompileError.parserError e.render)
  let typedAst ← (analyze ast).mapError CompileError.semanticError
  .ok typedAst

/-- `compile_with_path` from `lib.rs` (token-level), `now` as in
`IRGenerator.generate`. -/
def compileWithPath (toks : List Token) (options : CompilerOptions)
    (sourceText : String) (sourcePath : Option String) (now : Nat) :
    Except CompileError IRModule := do
  let typedAst ← compileToTypedAst toks
  let ir ←
    (match sourcePath with
     | some path => generateWithSource typedAst options sourceText path now
     | none => generate typedAst options now).mapError CompileError.irError
  .ok ir

/-- `compile` from `lib.rs` (token-level). -/
def compile (toks : List Token) (options : CompilerOptions) (sourceText : String)
    (now : Nat) : Except CompileError IRModule :=
  compileWithPath toks options sourceText none now

/-! ## Concrete scenario inputs -/

/-- Token constructor shorthand. -/
def tok (k : TokenKind) (text : String) (start stop : Nat) : Token :=
  ⟨k, text, ⟨start, stop⟩⟩

/-- Tokens of `component Health { current: integer } rule on Dmg
{ entity.Health.current -= 10 }` (spec Scenario B). -/
def scenarioBTokens : List Token :=
  [tok .Component "component" 0 9, tok .Identifier "Health" 10 16,
   tok .LBrace "\x7b" 17 18, tok .Identifier "current" 19 26,
   tok .Colon ":" 26 27, tok .TypeInteger "integer" 28 35,
   tok .RBrace "\x7d" 36 37,
   tok .Rule "rule" 38 42, tok .On "on" 43 45, tok .Identifier "Dmg" 46 49,
   tok .LBrace "\x7b" 50 51,
   tok .Entity "entity" 52 58, tok .Dot "." 58 59,
   tok .Identifier "Health" 59 65, tok .Dot "." 65 66,
   tok .Identifier "current" 66 73, tok .MinusEq "-=" 74 76,
   tok .IntegerLiteral "10" 77 79,
   tok .RBrace "\x7d" 80 81]

/-- Tokens of `component Health { current: integer max: integer }
warrior = new entity { Health { current: 100 max: 100 } }`
(spec Scenario C). -/
def scenarioCTokens : List Token :=
  [tok .Component "component" 0 9, tok .Identifier "Health" 10 16,
   tok .LBrace "\x7b" 17 18, tok .Identifier "current" 19 26,
   tok .Colon ":" 26 27, tok .TypeInteger "integer" 28 35,
   tok .Identifier "max" 36 39, tok .Colon ":" 39 40,
   tok .TypeInteger "integer" 41 48, tok .RBrace "\x7d" 49 50,
   tok .Identifier "warrior" 51 58, tok .Eq "=" 59 60,
   tok .New "new" 61 64, tok .Entity "entity" 65 71,
   tok .LBrace "\x7b" 72 73, tok .Identifier "Health" 74 80,
   tok .LBrace "\x7b" 81 82, tok .Identifier "current" 83 90,
   tok .Colon ":" 90 91, tok .IntegerLiteral "100" 92 95,
   tok .Identifier "max" 96 99, tok .Colon ":" 99 100,
   tok .IntegerLiteral "100" 101 104, tok .RBrace "\x7d" 105 106,
   tok .RBrace "\x7d" 107 108]

/-- Tokens of `rule test on E { let warriors = entities having Character }`
with `Character` undeclared (spec Scenario D). -/
def scenarioDTokens : List Token :=
  [tok .Rule "rule" 0 4, tok .Identifier "test" 5 9, tok .On "on" 10 12,
   tok .Identifier "E" 13 14, tok .LBrace "\x7b" 15 16,
   tok .Let "let" 17 20, tok .Identifier "warriors" 21 29,
   tok .Eq "=" 30 31, tok .Entities "entities" 32 40,
   tok .Having "having" 41 47, tok .Identifier "Character" 48 57,
   tok .RBrace "\x7d" 58 59]

/-- Tokens of a rule with the priority annotation
`[priority: 99999999999999999999]` (an integer outside `i32`). -/
def overflowPriorityTokens : List Token :=
  [tok .Rule "rule" 0 4, tok .On "on" 5 7, tok .Identifier "E" 8 9,
   tok .LBracket "[" 10 11, tok .Identifier "priority" 11 19,
   tok .Colon ":" 19 20,
   tok .IntegerLiteral "99999999999999999999" 21 41,
   tok .RBracket "]" 41 42, tok .LBrace "\x7b" 43 44, tok .RBrace "\x7d" 45 46]

/-- Tokens of the choice-parameter type `Character & Skills`. -/
def compositeOkTokens : List Token :=
  [tok .Identifier "Character" 0 9, tok .And "&" 10 11,
   tok .Identifier "Skills" 12 18]

/-- Tokens of the choice-parameter type `Character & integer`. -/
def compositeIntegerTokens : List Token :=
  [tok .Identifier "Character" 0 9, tok .And "&" 10 11,
   tok .TypeInteger "integer" 12 19]

/-- Tokens of the choice-parameter type `Character & 5`. -/
def compositeFiveTokens : List Token :=
  [tok .Identifier "Character" 0 9, tok .And "&" 10 11,
   tok .IntegerLiteral "5" 12 13]

/-- A module whose single rule references three distinct undefined
identifiers: a variable, a function, and a component. -/
def threeUndefinedModule : Module :=
  ⟨[.rule ⟨none, "E", none, none,
      .mk [.expr (.identifier "undefVar" ⟨0, 0⟩),
           .expr (.call "undefFn" [] ⟨0, 0⟩),
           .expr (.entitiesHaving "UndefComp" ⟨0, 0⟩)] ⟨0, 0⟩,
      ⟨0, 0⟩⟩]⟩

/-- A module whose rule references component `Health` *before* its
declaration (forward reference). -/
def forwardRefModule : Module :=
  ⟨[.rule ⟨none, "E", none, none,
      .mk [.letS (.mk "l" none (.entitiesHaving "Health" ⟨0, 0⟩) ⟨0, 0⟩)] ⟨0, 0⟩,
      ⟨0, 0⟩⟩,
    .component ⟨"Health", [⟨"current", .integer, false, ⟨0, 0⟩⟩], ⟨0, 0⟩⟩]⟩

/-- The module that `parse` yields on `scenarioDTokens`. -/
def scenarioDModule : Module :=
  ⟨[.rule ⟨some "test", "E", none, none,
      .mk [.letS (.mk "warriors" none (.entitiesHaving "Character" ⟨32, 57⟩) ⟨17, 57⟩)]
        ⟨15, 59⟩, ⟨0, 12⟩⟩]⟩

/-- The numeric result-type computation of the arithmetic arm of
`Analyzer::analyze_expr` (the `match (&left_typed.typ, &right_typed.typ)`),
factored out for statement reuse. -/
def binResultType (t1 t2 : Ty) : Ty :=
  match t1, t2 with
  | .float, _ => .float
  | _, .float => .float
  | .decimal, _ => .decimal
  | _, .decimal => .decimal
  | _, _ => .integer

/-! ## Auxiliary lemmas -/

theorem smapGet_insert {α : Type} (m : List (String × α)) (k : String) (v : α)
    (q : String) :
    smapGet? (smapInsert m k v) q = if k = q then some v else smapGet? m q := by
  induction m with
  | nil => by_cases h : k = q <;> simp [smapInsert, smapGet?, h]
  | cons p rest ih =>
      obtain ⟨k₀, v₀⟩ := p
      by_cases hk : k₀ = k
      · subst hk
        by_cases hq : k₀ = q <;> simp [smapInsert, smapGet?, hq]
      · by_cases hq : k₀ = q
        · subst hq
          have : k ≠ k₀ := fun h => hk h.symm
          simp [smapInsert, smapGet?, hk, this]
        · simp [smapInsert, smapGet?, hk, hq, ih]

theorem smapGet_insert_self {α : Type} (m : List (String × α)) (k : String) (v : α) :
    smapGet? (smapInsert m k v) k = some v := by
  simp [smapGet_insert]

theorem smapGet_insert_isSome {α : Type} (m : List (String × α)) (k k' : String)
    (v : α) (h : (smapGet? m k').isSome) :
    (smapGet? (smapInsert m k v) k').isSome := by
  rw [smapGet_insert]
  by_cases hk : k = k' <;> simp [hk, h]

theorem collectItem_preserves_component (a : Analyzer) (it : Item) (name : String)
    (h : (a.symbols.getComponent name).isSome) :
    (((a.collectItem it)).symbols.getComponent name).isSome := by
  cases it with
  | component comp =>
      simp only [Analyzer.collectItem, SymbolTable.addComponent, SymbolTable.getComponent] at h ⊢
      exact smapGet_insert_isSome _ _ _ _ h
  | function func =>
      simpa [Analyzer.collectItem, SymbolTable.addFunction, SymbolTable.getComponent] using h
  | rule r => simpa [Analyzer.collectItem] using h
  | importItem i => simpa [Analyzer.collectItem] using h
  | moduleDef n its sp => simpa [Analyzer.collectItem] using h
  | entity e => simpa [Analyzer.collectItem] using h

theorem collectFold_preserves_component (items : List Item) (a : Analyzer)
    (name : String) (h : (a.symbols.getComponent name).isSome) :
    ((items.foldl Analyzer.collectItem a).symbols.getComponent name).isSome := by
  induction items generalizing a with
  | nil => simpa using h
  | cons it rest ih =>
      simpa using ih (a.collectItem it) (collectItem_preserves_component a it name h)

theorem collectFold_registers_component (items : List Item) (a : Analyzer)
    (c : ComponentDef) (h : Item.component c ∈ items) :
    ((items.foldl Analyzer.collectItem a).symbols.getComponent c.name).isSome := by
  induction items generalizing a with
  | nil => simp at h
  | cons it rest ih =>
      rcases List.mem_cons.mp h with h1 | h2
      · subst h1
        refine collectFold_preserves_component rest _ _ ?_
        simp [Analyzer.collectItem, SymbolTable.addComponent, SymbolTable.getComponent,
          smapGet_insert_self]
      · simpa using ih (a.collectItem it) h2

theorem generateStatementActions_eq_filterMap (stmts : List TypedStatement) :
    generateStatementActions stmts = stmts.filterMap generateStatementAction := by
  induction stmts with
  | nil => simp [generateStatementActions]
  | cons s rest ih =>
      rw [generateStatementActions]
      cases h : generateStatementAction s <;>
        simp [List.filterMap_cons, h, ih]

/-! ## Claim theorems -/

/-- C10: `IRGenerator::generate_rule` never reads the rule's priority — two
typed rules that agree on name, trigger event, condition and body but differ
in priority lower, from the same id-counter state, to identical `IRRule`
values (the `IRRule` type has no priority field). -/
theorem priority_never_reaches_ir
    (g : IRGenerator) (name : Option String) (triggerEvent : String)
    (condition : Option TypedExpr) (body : TypedBlock) (p p' : Option Int) :
    g.generateRule ⟨name, triggerEvent, condition, p, body⟩ =
      g.generateRule ⟨name, triggerEvent, condition, p', body⟩ := rfl

/-- C9: `IRGenerator::generate_expression_from_kind` sends `MethodCall`,
`HasComponent`, `Cast` and `EntitiesHaving` typed expressions to the IR
literal `null` via its catch-all arm, so these constructs are silently lost;
in particular a rule whose condition is `entities having C` lowers to a rule
whose condition is the literal `null`. -/
theorem untranslated_expr_kinds_lower_to_null :
    (∀ (base : TypedExpr) (method : String) (args : List TypedExpr),
       generateExpressionFromKind (.methodCall base method args) = .literal .null) ∧
    (∀ (base : TypedExpr) (comp : String),
       generateExpressionFromKind (.hasComponent base comp) = .literal .null) ∧
    (∀ (e : TypedExpr) (ty : Ty),
       generateExpressionFromKind (.cast e ty) = .literal .null) ∧
    (∀ comp : String,
       generateExpressionFromKind (.entitiesHaving comp) = .literal .null) ∧
    IRGenerator.new.generateRule
        ⟨none, "E", some (.mk (.entitiesHaving "C") (.list .entityId)), none, .mk []⟩ =
      (⟨0, none, ⟨"event", some "E", none⟩, none, some (.literal .null), []⟩,
       ⟨0, 1, 0, 0, 0⟩) := by
  refine ⟨?_, ?_, ?_, ?_, rfl⟩ <;> intros <;> rfl

/-- C4: lowering an assignment whose target is a field access emits exactly
one `modify` action whose parts come from the target chain, with the op
string determined by the assignment operator (`= → set`, `+= → add`,
`-= → subtract`, `*= → multiply`, `/= → divide`); in particular the Scenario
B source (`Health` declared, rule body `entity.Health.current -= 10`)
compiles so that rule 0's actions are exactly one `modify` with op
`"subtract"`, field `"current"` and value the literal 10. -/
theorem assignment_lowers_to_modify :
    (∀ (base : TypedExpr) (field : String) (t : Ty) (op : AssignOp)
       (value : TypedExpr),
       generateStatementAction (.assignment (.mk (.fieldAccess base field) t) op value) =
         some (.modify (generateExpressionFromKind (extractEntityComponent base).1.kind)
                 (extractEntityComponent base).2 field (convertAssignOp op)
                 (generateExpression value))) ∧
    convertAssignOp .Assign = "set" ∧
    convertAssignOp .AddAssign = "add" ∧
    convertAssignOp .SubAssign = "subtract" ∧
    convertAssignOp .MulAssign = "multiply" ∧
    convertAssignOp .DivAssign = "divide" ∧
    (compile scenarioBTokens CompilerOptions.default "" 0).map
        (fun ir => ir.rules.map (fun r => (r.id, r.actions))) =
      .ok [(0, [.modify (.var "entity") "Health" "current" "subtract"
                  (.literal (.number 10))])] := by
  refine ⟨?_, rfl, rfl, rfl, rfl, rfl, rfl⟩
  intros base field t op value
  rfl

/-- C5: in rule-body lowering, bare expression statements, `let`, `while`
and `cancel` statements contribute no action (they are silently dropped),
while assignments to a field-access target, `if`, `for`, `schedule`,
`create` and `delete` statements contribute exactly one action each; the
lowered action list of a block is exactly the `filterMap` of the
per-statement lowering. -/
theorem statement_action_lowering :
    (∀ e : TypedExpr, generateStatementAction (.expr e) = none) ∧
    (∀ (name : String) (varType : Ty) (value : TypedExpr),
       generateStatementAction (.letS name varType value) = none) ∧
    (∀ (condition : TypedExpr) (body : TypedBlock),
       generateStatementAction (.whileS condition body) = none) ∧
    (∀ target : TypedExpr, generateStatementAction (.cancel target) = none) ∧
    (∀ (base : TypedExpr) (field : String) (t : Ty) (op : AssignOp)
       (value : TypedExpr),
       (generateStatementAction
         (.assignment (.mk (.fieldAccess base field) t) op value)).isSome = true) ∧
    (∀ (condition : TypedExpr) (thenBlock : TypedBlock)
       (elseBlock : Option TypedElseClause),
       (generateStatementAction (.ifS condition thenBlock elseBlock)).isSome = true) ∧
    (∀ (varName : String) (iterable : TypedExpr) (body : TypedBlock),
       (generateStatementAction (.forS varName iterable body)).isSome = true) ∧
    (∀ (recurring : Bool) (delay interval : Option TypedExpr) (eventName : String)
       (fields : List (String × TypedExpr)),
       (generateStatementAction
         (.schedule recurring delay interval eventName fields)).isSome = true) ∧
    (∀ components : List TypedComponentInit,
       (generateStatementAction (.create components)).isSome = true) ∧
    (∀ entity : TypedExpr,
       (generateStatementAction (.delete entity)).isSome = true) ∧
    (∀ stmts : List TypedStatement,
       generateBlockActions (.mk stmts) = stmts.filterMap generateStatementAction) := by
  refine ⟨?_, ?_, ?_, ?_, ?_, ?_, ?_, ?_, ?_, ?_, ?_⟩ <;> intros <;>
    first
      | rfl
      | exact generateStatementActions_eq_filterMap _

/-- C2: for every binary expression typed by the analyzer, an arithmetic
operator (`+,-,*,/,%`) yields the numeric promotion of the two analyzed
operand types — `Float` if either is `Float`, else `Decimal` if either is
`Decimal`, else `Integer` — and every comparison, equality or logical
operator yields `Boolean`; in particular `10 + 5` types as `Integer` and
`10 + 5.0` as `Float`. -/
theorem binary_expr_type_promotion :
    (∀ (a : Analyzer) (scope : Scope) (l r : Expr) (op : BinaryOp) (sp : Span),
      (op = .Add ∨ op = .Sub ∨ op = .Mul ∨ op = .Div ∨ op = .Mod) →
      (a.analyzeExpr (.binary l op r sp) scope).1.typ =
        binResultType (a.analyzeExpr l scope).1.typ
          ((a.analyzeExpr l scope).2.analyzeExpr r scope).1.typ) ∧
    (∀ t1 t2 : Ty, (t1 = .float ∨ t2 = .float) → binResultType t1 t2 = .float) ∧
    (∀ t1 t2 : Ty, t1 ≠ .float → t2 ≠ .float → (t1 = .decimal ∨ t2 = .decimal) →
       binResultType t1 t2 = .decimal) ∧
    (∀ t1 t2 : Ty, t1 ≠ .float → t2 ≠ .float → t1 ≠ .decimal → t2 ≠ .decimal →
       binResultType t1 t2 = .integer) ∧
    (∀ (a : Analyzer) (scope : Scope) (l r : Expr) (op : BinaryOp) (sp : Span),
      (op = .Eq ∨ op = .NotEq ∨ op = .Lt ∨ op = .LtEq ∨ op = .Gt ∨ op = .GtEq ∨
       op = .And ∨ op = .Or) →
      (a.analyzeExpr (.binary l op r sp) scope).1.typ = .boolean) ∧
    (Analyzer.new.analyzeExpr (.binary (.literal (.integer 10)) .Add
        (.literal (.integer 5)) ⟨0, 0⟩) Scope.new).1.typ = .integer ∧
    (Analyzer.new.analyzeExpr (.binary (.literal (.integer 10)) .Add
        (.literal (.float 5)) ⟨0, 0⟩) Scope.new).1.typ = .float := by
  refine ⟨?_, ?_, ?_, ?_, ?_, rfl, rfl⟩
  · intro a scope l r op sp h
    rcases h with rfl | rfl | rfl | rfl | rfl <;>
    · rcases hL : a.analyzeExpr l scope with ⟨ltE, a1⟩
      rcases hR : a1.analyzeExpr r scope with ⟨rtE, a2⟩
      obtain ⟨kL, tL⟩ := ltE
      obtain ⟨kR, tR⟩ := rtE
      simp only [Analyzer.analyzeExpr, hL, hR]
      cases tL <;> cases tR <;> rfl
  · intro t1 t2 h
    cases t1 <;> cases t2 <;> simp_all [binResultType]
  · intro t1 t2 h1 h2 h
    cases t1 <;> cases t2 <;> simp_all [binResultType]
  · intro t1 t2 h1 h2 h3 h4
    cases t1 <;> cases t2 <;> simp_all [binResultType]
  · intro a scope l r op sp h
    rcases h with rfl | rfl | rfl | rfl | rfl | rfl | rfl | rfl <;>
    · rcases hL : a.analyzeExpr l scope with ⟨ltE, a1⟩
      rcases hR : a1.analyzeExpr r scope with ⟨rtE, a2⟩
      simp only [Analyzer.analyzeExpr, hL, hR]
      rfl

/-- Witness for C2 at concrete input `10 + 5.0`. -/
theorem binary_expr_type_promotion_witness :
    (Analyzer.new.analyzeExpr (.binary (.literal (.integer 10)) .Add
        (.literal (.float 5)) ⟨0, 0⟩) Scope.new).1.typ =
      binResultType .integer .float ∧
    binResultType .integer .float = .float := by
  constructor
  · exact binary_expr_type_promotion.1 Analyzer.new Scope.new
      (.literal (.integer 10)) (.literal (.float 5)) .Add ⟨0, 0⟩ (Or.inl rfl)
  · exact binary_expr_type_promotion.2.1 .integer .float (Or.inr rfl)

/-- C3: the collection pass registers every component of the module before
the type-checking pass begins, so a later-declared component is already in
the symbol table when an earlier rule references it; an `entities having C`
reference whose component is in the table records no error; concretely, a
module whose rule references `Health` before its declaration analyzes with
zero errors. -/
theorem forward_reference_resolution :
    (∀ (m : Module) (c : ComponentDef), Item.component c ∈ m.items →
       ((Analyzer.new.collectDefinitions m).symbols.getComponent c.name).isSome = true) ∧
    (∀ (a : Analyzer) (scope : Scope) (comp : String) (sp : Span),
       (a.symbols.getComponent comp).isSome = true →
       a.analyzeExpr (.entitiesHaving comp sp) scope =
         (.mk (.entitiesHaving comp) (.list .entityId), a)) ∧
    ((Analyzer.new.collectDefinitions forwardRefModule).analyzeItems
        forwardRefModule.items).2.errors = [] ∧
    (∃ tm, Analyzer.new.analyze forwardRefModule = .ok tm) := by
  refine ⟨?_, ?_, rfl, ⟨_, rfl⟩⟩
  · intro m c h
    simpa [Analyzer.collectDefinitions] using
      collectFold_registers_component m.items Analyzer.new c h
  · intro a scope comp sp h
    rcases Option.isSome_iff_exists.mp h with ⟨ci, hci⟩
    simp [Analyzer.analyzeExpr, hci]

/-- Witness for C3: the forward-reference module's `Health` component is
registered by collection, and the reference records no error. -/
theorem forward_reference_resolution_witness :
    ((Analyzer.new.collectDefinitions forwardRefModule).symbols.getComponent
        "Health").isSome = true ∧
    (Analyzer.new.collectDefinitions forwardRefModule).analyzeExpr
        (.entitiesHaving "Health" ⟨0, 0⟩) Scope.new =
      (.mk (.entitiesHaving "Health") (.list .entityId),
       Analyzer.new.collectDefinitions forwardRefModule) := by
  have h1 := forward_reference_resolution.1 forwardRefModule
    ⟨"Health", [⟨"current", .integer, false, ⟨0, 0⟩⟩], ⟨0, 0⟩⟩
    (by simp [forwardRefModule])
  refine ⟨h1, ?_⟩
  exact forward_reference_resolution.2.1
    (Analyzer.new.collectDefinitions forwardRefModule) Scope.new "Health" ⟨0, 0⟩ h1

/-- C1: semantic analysis accumulates every discoverable error across the
whole two-pass traversal — `Analyzer::analyze` returns the typed module
exactly when the accumulated error list is empty and the full error list
otherwise; a module with three distinct undefined references yields exactly
three errors; and the compile pipeline reaches IR generation exactly when
analysis returned no errors. -/
theorem analyze_accumulates_and_gates_pipeline :
    (∀ m : Module,
       (Analyzer.new.analyze m =
           .ok ⟨((Analyzer.new.collectDefinitions m).analyzeItems m.items).1,
                ((Analyzer.new.collectDefinitions m).analyzeItems m.items).2.symbols⟩ ↔
         ((Analyzer.new.collectDefinitions m).analyzeItems m.items).2.errors = []) ∧
       (((Analyzer.new.collectDefinitions m).analyzeItems m.items).2.errors ≠ [] →
         Analyzer.new.analyze m =
           .error ((Analyzer.new.collectDefinitions m).analyzeItems m.items).2.errors)) ∧
    ((Analyzer.new.collectDefinitions threeUndefinedModule).analyzeItems
        threeUndefinedModule.items).2.errors =
      [.undefinedVariable "undefVar", .undefinedFunction "undefFn",
       .undefinedComponent "UndefComp"] ∧
    Analyzer.new.analyze threeUndefinedModule =
      .error [.undefinedVariable "undefVar", .undefinedFunction "undefFn",
              .undefinedComponent "UndefComp"] ∧
    (∀ (toks : List Token) (options : CompilerOptions) (sourceText : String)
       (now : Nat) (m : Module) (errs : List SemanticError),
       parse toks = .ok m → Analyzer.new.analyze m = .error errs →
       compile toks options sourceText now =
         .error (.semanticError
           (String.intercalate "\n" (errs.map SemanticError.render)))) ∧
    (∀ (toks : List Token) (options : CompilerOptions) (sourceText : String)
       (now : Nat) (ir : IRModule),
       compile toks options sourceText now = .ok ir →
       ∃ m tm, parse toks = .ok m ∧ Analyzer.new.analyze m = .ok tm ∧
         compile toks options sourceText now =
           (generate tm options now).mapError CompileError.irError) := by
  refine ⟨?_, rfl, rfl, ?_, ?_⟩
  · intro m
    rcases hE : (Analyzer.new.collectDefinitions m).analyzeItems m.items with ⟨ti, a2⟩
    have hA : Analyzer.new.analyze m =
        if a2.errors = [] then .ok ⟨ti, a2.symbols⟩ else .error a2.errors := by
      simp [Analyzer.analyze, hE]
    by_cases h : a2.errors = [] <;> simp [hA, h]
  · intro toks options sourceText now m errs hp ha
    simp [compile, compileWithPath, compileToTypedAst, hp, analyze, ha,
      Except.mapError, Bind.bind, Except.bind]
  · intro toks options sourceText now ir h
    rcases hp : parse toks with e | m
    · simp [compile, compileWithPath, compileToTypedAst, hp, Except.mapError,
        Bind.bind, Except.bind] at h
    · rcases ha : Analyzer.new.analyze m with errs | tm
      · simp [compile, compileWithPath, compileToTypedAst, hp, analyze, ha,
          Except.mapError, Bind.bind, Except.bind] at h
      · refine ⟨m, tm, rfl, ha, ?_⟩
        simp only [compile, compileWithPath, compileToTypedAst, hp, analyze, ha,
          Except.mapError, Bind.bind, Except.bind]
        rcases generate tm options now with e | irv <;> rfl

/-- Witness for C1: the pipeline-gating parts applied at Scenario D (one
semantic error blocks IR generation) and Scenario B (no errors, generation
reached). -/
theorem analyze_accumulates_and_gates_pipeline_witness :
    compile scenarioDTokens CompilerOptions.default "" 0 =
      .error (.semanticError "Undefined component 'Character'") ∧
    (∃ m tm, parse scenarioBTokens = .ok m ∧ Analyzer.new.analyze m = .ok tm ∧
       compile scenarioBTokens CompilerOptions.default "" 0 =
         (generate tm CompilerOptions.default 0).mapError CompileError.irError) := by
  constructor
  · exact analyze_accumulates_and_gates_pipeline.2.2.2.1 scenarioDTokens
      CompilerOptions.default "" 0 scenarioDModule
      [.undefinedComponent "Character"] rfl rfl
  · exact analyze_accumulates_and_gates_pipeline.2.2.2.2 scenarioBTokens
      CompilerOptions.default "" 0 _ rfl

/-- C7: compiling `component Health { current: integer max: integer }`
together with `warrior = new entity { Health { current: 100 max: 100 } }`
produces an `IRModule` whose initial state holds exactly one entity, named
`warrior` from the variable binding recorded by the parser, with one
`Health` component entry holding the two literal fields. -/
theorem warrior_entity_initial_state :
    (compile scenarioCTokens CompilerOptions.default "" 0).map
        (fun ir => ir.initialState) =
      .ok (some ⟨[⟨0, some "warrior",
        [("Health", [("current", .number 100), ("max", .number 100)])],
        none⟩]⟩) := rfl

/-- Inversion of `Except.bind` at a successful result. -/
theorem exceptBind_ok {ε α β : Type} (x : Except ε α) (f : α → Except ε β)
    (b : β) (h : x.bind f = .ok b) : ∃ a, x = .ok a ∧ f a = .ok b := by
  cases x with
  | error e => simp [Except.bind] at h
  | ok a => exact ⟨a, rfl, by simpa [Except.bind] using h⟩

/-- C6 counterexample: `parse` can return an `InvalidSyntax` error that
reports neither the offending token's text and position nor an
expected-at-end-of-input token: an in-range grammar with an out-of-`i32`
priority literal. -/
theorem parse_invalid_syntax_counterexample :
    parse overflowPriorityTokens =
      .error (.invalidSyn
        "Invalid priority value: '99999999999999999999' is not a valid integer") ∧
    (∀ found expected position,
       parse overflowPriorityTokens ≠
         .error (.unexpectedToken found expected position)) ∧
    (∀ expected, parse overflowPriorityTokens ≠ .error (.unexpectedEof expected)) ∧
    (∀ m, parse overflowPriorityTokens ≠ .ok m) := by
  have h : parse overflowPriorityTokens =
      .error (.invalidSyn
        "Invalid priority value: '99999999999999999999' is not a valid integer") := rfl
  refine ⟨h, ?_, ?_, ?_⟩ <;> intros <;> simp [h]

/-- C6 (amended): every run of `parse` returns either a complete module or a
single error, and that error is an `UnexpectedToken` carrying the found text
and absolute byte position, an `UnexpectedEof` carrying what was expected,
or an `InvalidSyntax` carrying only a message; moreover every error built by
`Parser::consume` reports the current token's exact text and span start, or
`UnexpectedEof` when no token remains. -/
theorem parse_error_taxonomy :
    (∀ toks : List Token,
       (∃ m, parse toks = .ok m) ∨
       (∃ found expected position,
          parse toks = .error (.unexpectedToken found expected position)) ∨
       (∃ expected, parse toks = .error (.unexpectedEof expected)) ∨
       (∃ message, parse toks = .error (.invalidSyn message))) ∧
    (∀ (toks : List Token) (pos : Nat) (kind : TokenKind) (expected : String)
       (e : ParseError), consume toks pos kind expected = .error e →
       (∃ t, peekT toks pos = some t ∧
          e = .unexpectedToken t.text expected t.span.start) ∨
       (peekT toks pos = none ∧ e = .unexpectedEof expected)) := by
  constructor
  · intro toks
    rcases h : parse toks with e | m
    · cases e with
      | unexpectedToken f ex p => exact Or.inr (Or.inl ⟨f, ex, p, rfl⟩)
      | unexpectedEof ex => exact Or.inr (Or.inr (Or.inl ⟨ex, rfl⟩))
      | invalidSyn msg => exact Or.inr (Or.inr (Or.inr ⟨msg, rfl⟩))
    · exact Or.inl ⟨m, rfl⟩
  · intro toks pos kind expected e h
    rw [consume] at h
    rcases hp : peekT toks pos with _ | t
    · rw [hp] at h
      simp at h
      exact Or.inr ⟨rfl, h.symm⟩
    · rw [hp] at h
      by_cases hk : t.kind = kind
      · simp [hk] at h
      · simp [hk] at h
        exact Or.inl ⟨t, rfl, h.symm⟩

/-- Witness for C6: `consume` demanding a `rule` keyword while looking at
the token `on` reports exactly that token's text and byte position. -/
theorem parse_error_taxonomy_witness :
    (∃ t, peekT [tok .On "on" 0 2] 0 = some t ∧
       ParseError.unexpectedToken "on" "rule" 0 =
         .unexpectedToken t.text "rule" t.span.start) ∨
    (peekT [tok .On "on" 0 2] 0 = none ∧
       ParseError.unexpectedToken "on" "rule" 0 = .unexpectedEof "rule") :=
  parse_error_taxonomy.2 [tok .On "on" 0 2] 0 .Rule "rule"
    (.unexpectedToken "on" "rule" 0) rfl

/-- `Parser::parse_type` never yields a composite type (composites arise
only from `parse_choice_param_type`). -/
theorem parseType_no_composite (toks : List Token) (fuel pos : Nat)
    (t : TypeExpr) (p : Nat) (h : parseType toks fuel pos = .ok (t, p))
    (tys : List TypeExpr) : t ≠ .composite tys := by
  cases fuel with
  | zero => simp [parseType] at h
  | succ fuel =>
      rw [parseType] at h
      rcases ha : advanceT toks pos with _ | ⟨tk, pos'⟩
      · rw [ha] at h
        simp at h
      · rw [ha] at h
        obtain ⟨kind, text, span⟩ := tk
        cases kind
        case TypeList =>
          by_cases hc : checkT toks pos' .Lt
          · simp only [hc, if_true] at h
            obtain ⟨⟨inner, pos2⟩, h1, h2⟩ := exceptBind_ok _ _ _ h
            obtain ⟨⟨g, pos3⟩, h3, h4⟩ := exceptBind_ok _ _ _ h2
            simp [pure, Except.pure] at h4
            simp [h4.1.symm]
          · simp only [hc, if_false] at h
            simp at h
            simp [h.1.symm]
        all_goals simp at h
        all_goals
          rcases h with ⟨h1, h2⟩
          rw [← h1]
          simp

/-- C8 counterexample: the `&`-chain `Character & 5` is rejected at parse
time, but with an `UnexpectedToken` error from `parse_type` — not with
`InvalidSyntax` as the claim states. -/
theorem composite_nontype_member_counterexample :
    parseChoiceParamType compositeFiveTokens 99 0 =
      .error (.unexpectedToken "5" "type" 12) ∧
    (∀ message, parseChoiceParamType compositeFiveTokens 99 0 ≠
       .error (.invalidSyn message)) := by
  have h : parseChoiceParamType compositeFiveTokens 99 0 =
      .error (.unexpectedToken "5" "type" 12) := rfl
  exact ⟨h, by intro msg hmsg; rw [h] at hmsg; simp at hmsg⟩

/-- C8 (amended): a `&`-chain parses as `Composite` only when every member is
a component-type reference (`Character & Skills` does); a member that parses
as a non-component type (`Character & integer`) is rejected at parse time
with `InvalidSyntax`, while a member that is not a type token at all
(`Character & 5`) is rejected at parse time earlier, by `parse_type`, with
`UnexpectedToken`. -/
theorem composite_member_validation :
    (∀ (toks : List Token) (fuel pos : Nat) (tys : List TypeExpr) (p : Nat),
       parseChoiceParamType toks fuel pos = .ok (.composite tys, p) →
       ∀ t ∈ tys, ∃ n, t = TypeExpr.component n) ∧
    parseChoiceParamType compositeOkTokens 99 0 =
      .ok (.composite [.component "Character", .component "Skills"], 3) ∧
    parseChoiceParamType compositeIntegerTokens 99 0 =
      .error (.invalidSyn "Composite types (using &) can only contain component types") ∧
    parseChoiceParamType compositeFiveTokens 99 0 =
      .error (.unexpectedToken "5" "type" 12) := by
  refine ⟨?_, rfl, rfl, rfl⟩
  intro toks fuel pos tys p h t ht
  cases fuel with
  | zero => simp [parseChoiceParamType] at h
  | succ fuel =>
      rw [parseChoiceParamType] at h
      obtain ⟨⟨firstType, pos1⟩, h1, h2⟩ := exceptBind_ok _ _ _ h
      by_cases hc : checkT toks pos1 .And
      · simp only [hc, if_true] at h2
        obtain ⟨⟨types, pos2⟩, h3, h4⟩ := exceptBind_ok _ _ _ h2
        by_cases hall : types.all
            (fun t => match t with | .component _ => true | _ => false) = true
        · rw [if_pos hall] at h4
          simp at h4
          obtain ⟨hty, _⟩ := h4
          have := List.all_eq_true.mp hall t (hty ▸ ht)
          cases t <;> simp_all
        · rw [if_neg hall] at h4
          simp at h4
      · simp only [hc, if_false] at h2
        simp at h2
        exact absurd h2.1 (parseType_no_composite toks fuel pos _ _ h1 tys)

/-- Witness for C8: the composite members of `Character & Skills` are all
component references. -/
theorem composite_member_validation_witness :
    ∃ n, TypeExpr.component "Skills" = TypeExpr.component n :=
  composite_member_validation.1 compositeOkTokens 99 0
    [.component "Character", .component "Skills"] 3 rfl
    (.component "Skills") (by simp)

end Blink
